import Mathlib

/-!
Shallow embedding of the order/escrow/wallet ledger engine of the
GAMESBAZAARV8 marketplace (files `wallet/services.py`, `wallet/models.py`,
`orders/services.py`, `orders/models.py`, `listings/models.py`).

Money (Python `Decimal` with 2 decimal places) is modelled as `ℚ`;
`quantize` is `Decimal.quantize(Decimal("0.01"), rounding=ROUND_HALF_UP)`.
Database rows are modelled as Lean structures held in lists inside a
`MarketSt` record; each service function is a function
`MarketSt → ... → Except String MarketSt` (or returning the created row as
well).  A `transaction.atomic()` block that raises is modelled by the
`Except.error` result carrying no state at all: the rolled-back state is
the input state.  Time (`timezone.now()` / `datetime`) is an explicit
`Int` parameter.
-/

namespace GB

/-- Python `ROUND_HALF_UP` (ties round away from zero) to an integer. -/
def roundHalfUp (x : ℚ) : ℤ :=
  if 0 ≤ x then ⌊x + 1 / 2⌋ else -⌊-x + 1 / 2⌋

/-- `_q` from `orders/services.py`: quantize to 2 decimal places with
`ROUND_HALF_UP` (`MONEY_STEP = Decimal("0.01")`). -/
def quantize (x : ℚ) : ℚ :=
  (roundHalfUp (x * 100) : ℚ) / 100

/-- `PLATFORM_FEE_PERCENT = Decimal("5.00")` in `orders/services.py`. -/
def PLATFORM_FEE_PERCENT : ℚ := 5

/-- `AUTO_RELEASE_HOURS = 72` in `orders/services.py`. -/
def AUTO_RELEASE_HOURS : Int := 72

/-- `_calc_fee_and_net` from `orders/services.py` lines 27-34. -/
def calc_fee_and_net (total_amount : ℚ) : ℚ × ℚ :=
  let fee0 := quantize (total_amount * PLATFORM_FEE_PERCENT / 100)
  let fee1 := if fee0 < 0 then 0 else fee0
  let fee := if fee1 > total_amount then total_amount else fee1
  let net := quantize (total_amount - fee)
  (fee, net)

/-- `OrderStatus` from `orders/models.py`. -/
inductive OrderStatus where
  | pending_delivery
  | delivered
  | completed
  | disputed
  | refunded
  | cancelled
deriving DecidableEq, Repr

/-- `DisputeStatus` from `orders/models.py` (`open` is a Lean keyword,
hence `open'`). -/
inductive DisputeStatus where
  | open'
  | resolved
deriving DecidableEq, Repr

/-- `WalletLedgerDirection` from `wallet/models.py`. -/
inductive LedgerDirection where
  | credit
  | debit
  | transfer
deriving DecidableEq, Repr

/-- `WalletLedgerType` from `wallet/models.py`. -/
inductive LedgerType where
  | deposit_credit
  | withdrawal_hold
  | withdrawal_release
  | withdrawal_paid
  | order_payment
  | order_sale_hold
  | order_sale_release
  | order_fee_capture
  | order_refund
  | adjustment
deriving DecidableEq, Repr

/-- `DepositTicketStatus` from `wallet/models.py`. -/
inductive DepositStatus where
  | pending
  | approved
  | rejected
deriving DecidableEq, Repr

/-- `WithdrawalRequestStatus` from `wallet/models.py`. -/
inductive WithdrawalStatus where
  | pending
  | approved
  | rejected
  | paid
deriving DecidableEq, Repr

/-- `ListingStatus` from `listings/models.py`. -/
inductive ListingStatus where
  | active
  | paused
  | sold_out
  | archived
deriving DecidableEq, Repr

/-- A user (`settings.AUTH_USER_MODEL`); only the id and the staff flag
are consulted by the core services. -/
structure User where
  id : Nat
  is_staff : Bool
deriving DecidableEq, Repr

/-- `WalletAccount` from `wallet/models.py` (one per user). -/
structure Wallet where
  userId : Nat
  available_balance : ℚ
  held_balance : ℚ
deriving DecidableEq, Repr

/-- `WalletLedgerEntry` from `wallet/models.py` (append-only audit row). -/
structure LedgerEntry where
  walletUser : Nat
  entry_type : LedgerType
  direction : LedgerDirection
  amount : ℚ
  available_delta : ℚ
  held_delta : ℚ
  available_balance_after : ℚ
  held_balance_after : ℚ
  note : String
  reference_type : String
  reference_id : String
  created_by : Option Nat
deriving DecidableEq, Repr

/-- `Listing` from `listings/models.py` (the fields the order engine
reads). -/
structure Listing where
  id : Nat
  sellerId : Nat
  price_pkr : ℚ
  stock : Nat
  status : ListingStatus
deriving DecidableEq, Repr

/-- `Order` from `orders/models.py`. -/
structure Order where
  id : Nat
  buyerId : Nat
  sellerId : Nat
  listingId : Nat
  quantity : Nat
  unit_price : ℚ
  total_amount : ℚ
  platform_fee_amount : ℚ
  seller_net_amount : ℚ
  status : OrderStatus
  delivery_note : String
  paid_at : Option Int
  delivered_at : Option Int
  auto_release_at : Option Int
  buyer_confirmed_at : Option Int
  completed_at : Option Int
deriving DecidableEq, Repr

/-- `Dispute` from `orders/models.py` (one-to-one with an order). -/
structure Dispute where
  orderId : Nat
  opened_by : Nat
  reason : String
  details : String
  status : DisputeStatus
  resolution_note : String
  resolved_by : Option Nat
  resolved_at : Option Int
deriving DecidableEq, Repr

/-- `DepositTicket` from `wallet/models.py` (the fields the services
read). -/
structure DepositTicket where
  id : Nat
  userId : Nat
  amount : ℚ
  status : DepositStatus
deriving DecidableEq, Repr

/-- `WithdrawalRequest` from `wallet/models.py` (the fields the services
read). -/
structure WithdrawalRequest where
  id : Nat
  userId : Nat
  amount : ℚ
  payout_method : String
  account_title : String
  account_number : String
  bank_name : String
  payout_details : String
  status : WithdrawalStatus
deriving DecidableEq, Repr

/-- `append_wallet_entry` from `wallet/services.py` lines 28-61, at the
level of a single wallet row: applies both deltas, rejects when either
resulting balance is negative (`WalletError`), and otherwise returns the
updated wallet together with the new immutable ledger row whose
`available_balance_after` / `held_balance_after` snapshot the wallet after
the update. -/
def append_wallet_entry (w : Wallet) (entry_type : LedgerType)
    (direction : LedgerDirection) (amount available_delta held_delta : ℚ)
    (note reference_type reference_id : String) (created_by : Option Nat) :
    Except String (Wallet × LedgerEntry) :=
  let av := w.available_balance + available_delta
  let hd := w.held_balance + held_delta
  if av < 0 ∨ hd < 0 then
    Except.error "Wallet balance cannot become negative."
  else
    Except.ok
      ({ w with available_balance := av, held_balance := hd },
       { walletUser := w.userId
         entry_type := entry_type
         direction := direction
         amount := amount
         available_delta := available_delta
         held_delta := held_delta
         available_balance_after := av
         held_balance_after := hd
         note := note
         reference_type := reference_type
         reference_id := reference_id
         created_by := created_by })

/-- The persistent database state read and written by the core services. -/
structure MarketSt where
  wallets : List Wallet
  listings : List Listing
  orders : List Order
  disputes : List Dispute
  deposits : List DepositTicket
  withdrawals : List WithdrawalRequest
  ledger : List LedgerEntry
  nextOrderId : Nat
  nextWithdrawalId : Nat
deriving DecidableEq, Repr

def findWallet (s : MarketSt) (uid : Nat) : Option Wallet :=
  s.wallets.find? (fun w => w.userId == uid)

def findListing (s : MarketSt) (lid : Nat) : Option Listing :=
  s.listings.find? (fun l => l.id == lid)

def findOrder (s : MarketSt) (oid : Nat) : Option Order :=
  s.orders.find? (fun o => o.id == oid)

def findDispute (s : MarketSt) (oid : Nat) : Option Dispute :=
  s.disputes.find? (fun d => d.orderId == oid)

def findDeposit (s : MarketSt) (tid : Nat) : Option DepositTicket :=
  s.deposits.find? (fun t => t.id == tid)

def findWithdrawal (s : MarketSt) (wid : Nat) : Option WithdrawalRequest :=
  s.withdrawals.find? (fun r => r.id == wid)

/-- Persist an updated wallet row (`wallet.save(...)`). -/
def putWallet (s : MarketSt) (w : Wallet) : MarketSt :=
  { s with wallets := s.wallets.map (fun x => if x.userId == w.userId then w else x) }

/-- Persist an updated listing row. -/
def putListing (s : MarketSt) (l : Listing) : MarketSt :=
  { s with listings := s.listings.map (fun x => if x.id == l.id then l else x) }

/-- Persist an updated order row (`order.save(...)`). -/
def putOrder (s : MarketSt) (o : Order) : MarketSt :=
  { s with orders := s.orders.map (fun x => if x.id == o.id then o else x) }

/-- Persist an updated dispute row. -/
def putDispute (s : MarketSt) (d : Dispute) : MarketSt :=
  { s with disputes := s.disputes.map (fun x => if x.orderId == d.orderId then d else x) }

/-- Persist an updated deposit-ticket row. -/
def putDeposit (s : MarketSt) (t : DepositTicket) : MarketSt :=
  { s with deposits := s.deposits.map (fun x => if x.id == t.id then t else x) }

/-- Persist an updated withdrawal-request row. -/
def putWithdrawal (s : MarketSt) (r : WithdrawalRequest) : MarketSt :=
  { s with withdrawals := s.withdrawals.map (fun x => if x.id == r.id then r else x) }

/-- `get_or_create_wallet` from `wallet/services.py` lines 23-25. -/
def get_or_create_wallet (s : MarketSt) (uid : Nat) : MarketSt × Wallet :=
  match findWallet s uid with
  | some w => (s, w)
  | none =>
      let w : Wallet := { userId := uid, available_balance := 0, held_balance := 0 }
      ({ s with wallets := s.wallets ++ [w] }, w)

/-- A call to `append_wallet_entry` inside a service: on success the
updated wallet row is saved and the new ledger row is appended to the
(append-only) ledger.  The updated wallet is returned because the Python
code mutates the passed wallet object in place, so a second append on the
same object starts from the updated balances. -/
def appendEntrySt (s : MarketSt) (w : Wallet) (entry_type : LedgerType)
    (direction : LedgerDirection) (amount available_delta held_delta : ℚ)
    (note reference_type reference_id : String) (created_by : Option Nat) :
    Except String (MarketSt × Wallet) :=
  match append_wallet_entry w entry_type direction amount available_delta
      held_delta note reference_type reference_id created_by with
  | Except.error e => Except.error e
  | Except.ok (w', entry) =>
      Except.ok ({ putWallet s w' with ledger := s.ledger ++ [entry] }, w')

/-- `approve_deposit` from `wallet/services.py` lines 68-105. -/
def approve_deposit (s : MarketSt) (ticketId : Nat) (reviewer : User)
    (note : String) : Except String MarketSt :=
  match findDeposit s ticketId with
  | none => Except.error "DepositTicket matching query does not exist."
  | some ticket =>
    if ticket.status ≠ DepositStatus.pending then
      Except.error "Only pending deposits can be approved."
    else
      let gw := get_or_create_wallet s ticket.userId
      let s := gw.1
      let wallet := gw.2
      match appendEntrySt s wallet LedgerType.deposit_credit
          LedgerDirection.credit ticket.amount ticket.amount 0
          (if note = "" then "Deposit approved and credited." else note)
          "deposit_ticket" (toString ticket.id) (some reviewer.id) with
      | Except.error e => Except.error e
      | Except.ok (s, _) =>
          Except.ok (putDeposit s { ticket with status := DepositStatus.approved })

/-- `reject_deposit` from `wallet/services.py` lines 108-128. -/
def reject_deposit (s : MarketSt) (ticketId : Nat) (_reviewer : User)
    (_note : String) : Except String MarketSt :=
  match findDeposit s ticketId with
  | none => Except.error "DepositTicket matching query does not exist."
  | some ticket =>
    if ticket.status ≠ DepositStatus.pending then
      Except.error "Only pending deposits can be rejected."
    else
      Except.ok (putDeposit s { ticket with status := DepositStatus.rejected })

/-- The `WithdrawalPaymentMethod` choice values from `wallet/models.py`. -/
def withdrawalMethods : List String :=
  ["easypaisa", "jazzcash", "bank_transfer", "sadapay", "nayapay"]

/-- `reserve_withdrawal` from `wallet/services.py` lines 131-203. -/
def reserve_withdrawal (s : MarketSt) (user : User) (amount : ℚ)
    (payout_method payout_details account_title account_number bank_name : String) :
    Except String (MarketSt × WithdrawalRequest) :=
  if amount ≤ 0 then
    Except.error "Withdrawal amount must be greater than zero."
  else if payout_method ∉ withdrawalMethods then
    Except.error "Invalid payout method selected."
  else
    let account_title := account_title.trim
    let account_number := account_number.trim
    let bank_name := bank_name.trim
    let payout_details := payout_details.trim
    let account_title :=
      if payout_details ≠ "" ∧ account_title = "" then "Manual payout details"
      else account_title
    let account_number :=
      if payout_details ≠ "" ∧ account_number = "" then "See payout details"
      else account_number
    if account_title = "" then
      Except.error "Account title is required."
    else if account_number = "" then
      Except.error "Account number / wallet number / IBAN is required."
    else if payout_method = "bank_transfer" ∧ bank_name = "" then
      Except.error "Bank name is required for bank transfer withdrawals."
    else
      let payout_details :=
        if payout_details = "" then
          let pd := account_title ++ " | " ++ account_number
          if bank_name ≠ "" then pd ++ " | " ++ bank_name else pd
        else payout_details
      let gw := get_or_create_wallet s user.id
      let s := gw.1
      let wallet := gw.2
      if wallet.available_balance < amount then
        Except.error "Insufficient available balance."
      else
        let req : WithdrawalRequest :=
          { id := s.nextWithdrawalId
            userId := user.id
            amount := amount
            payout_method := payout_method
            account_title := account_title
            account_number := account_number
            bank_name := bank_name
            payout_details := payout_details
            status := WithdrawalStatus.pending }
        let s := { s with withdrawals := s.withdrawals ++ [req]
                          nextWithdrawalId := s.nextWithdrawalId + 1 }
        match appendEntrySt s wallet LedgerType.withdrawal_hold
            LedgerDirection.transfer amount (-amount) amount
            "Funds reserved for withdrawal request."
            "withdrawal_request" (toString req.id) (some user.id) with
        | Except.error e => Except.error e
        | Except.ok (s, _) => Except.ok (s, req)

/-- `approve_withdrawal` from `wallet/services.py` lines 206-225. -/
def approve_withdrawal (s : MarketSt) (wid : Nat) (_reviewer : User)
    (_note : String) : Except String MarketSt :=
  match findWithdrawal s wid with
  | none => Except.error "WithdrawalRequest matching query does not exist."
  | some req =>
    if req.status ≠ WithdrawalStatus.pending then
      Except.error "Only pending withdrawals can be approved."
    else
      Except.ok (putWithdrawal s { req with status := WithdrawalStatus.approved })

/-- `reject_withdrawal` from `wallet/services.py` lines 228-265. -/
def reject_withdrawal (s : MarketSt) (wid : Nat) (reviewer : User)
    (note : String) : Except String MarketSt :=
  match findWithdrawal s wid with
  | none => Except.error "WithdrawalRequest matching query does not exist."
  | some req =>
    if req.status ∉ [WithdrawalStatus.pending, WithdrawalStatus.approved] then
      Except.error "Only pending or approved withdrawals can be rejected."
    else
      let gw := get_or_create_wallet s req.userId
      let s := gw.1
      let wallet := gw.2
      if wallet.held_balance < req.amount then
        Except.error "Held balance is insufficient to reject this withdrawal."
      else
        match appendEntrySt s wallet LedgerType.withdrawal_release
            LedgerDirection.transfer req.amount req.amount (-req.amount)
            (if note = "" then "Withdrawal request rejected and funds returned." else note)
            "withdrawal_request" (toString req.id) (some reviewer.id) with
        | Except.error e => Except.error e
        | Except.ok (s, _) =>
            Except.ok (putWithdrawal s { req with status := WithdrawalStatus.rejected })

/-- `pay_withdrawal` from `wallet/services.py` lines 268-308.  Note the
gate: it rejects only the `rejected` and `paid` statuses, so both
`pending` and `approved` requests can be marked paid. -/
def pay_withdrawal (s : MarketSt) (wid : Nat) (reviewer : User)
    (note _payout_reference : String) : Except String MarketSt :=
  match findWithdrawal s wid with
  | none => Except.error "WithdrawalRequest matching query does not exist."
  | some req =>
    if req.status ∈ [WithdrawalStatus.rejected, WithdrawalStatus.paid] then
      Except.error "Only pending or approved withdrawals can be marked paid."
    else
      let gw := get_or_create_wallet s req.userId
      let s := gw.1
      let wallet := gw.2
      if wallet.held_balance < req.amount then
        Except.error "Held balance is insufficient to mark this withdrawal as paid."
      else
        match appendEntrySt s wallet LedgerType.withdrawal_paid
            LedgerDirection.debit req.amount 0 (-req.amount)
            (if note = "" then "Withdrawal marked as paid by finance admin." else note)
            "withdrawal_request" (toString req.id) (some reviewer.id) with
        | Except.error e => Except.error e
        | Except.ok (s, _) =>
            Except.ok (putWithdrawal s { req with status := WithdrawalStatus.paid })

/-- `create_order_from_listing` from `orders/services.py` lines 37-104. -/
def create_order_from_listing (s : MarketSt) (buyer : User) (listing_id : Nat)
    (quantity : Nat) (now : Int) : Except String (MarketSt × Order) :=
  if quantity < 1 then Except.error "Quantity must be at least 1."
  else
    match findListing s listing_id with
    | none => Except.error "Listing matching query does not exist."
    | some listing =>
      if listing.status ≠ ListingStatus.active then
        Except.error "This listing is not available for purchase."
      else if listing.stock < quantity then
        Except.error "Listing is out of stock."
      else if listing.sellerId = buyer.id then
        Except.error "You cannot buy your own listing."
      else
        let total_amount := quantize (listing.price_pkr * (quantity : ℚ))
        let fee_net := calc_fee_and_net total_amount
        let gw := get_or_create_wallet s buyer.id
        let s := gw.1
        let buyer_wallet := gw.2
        if buyer_wallet.available_balance < total_amount then
          Except.error "Insufficient wallet balance for this order."
        else
          let gw2 := get_or_create_wallet s listing.sellerId
          let s := gw2.1
          let seller_wallet := gw2.2
          let order : Order :=
            { id := s.nextOrderId
              buyerId := buyer.id
              sellerId := listing.sellerId
              listingId := listing.id
              quantity := quantity
              unit_price := listing.price_pkr
              total_amount := total_amount
              platform_fee_amount := fee_net.1
              seller_net_amount := fee_net.2
              status := OrderStatus.pending_delivery
              delivery_note := ""
              paid_at := some now
              delivered_at := none
              auto_release_at := none
              buyer_confirmed_at := none
              completed_at := none }
          let s := { s with orders := s.orders ++ [order]
                            nextOrderId := s.nextOrderId + 1 }
          match appendEntrySt s buyer_wallet LedgerType.order_payment
              LedgerDirection.debit total_amount (-total_amount) 0
              "Payment for order." "order" (toString order.id) (some buyer.id) with
          | Except.error e => Except.error e
          | Except.ok (s, _) =>
            match appendEntrySt s seller_wallet LedgerType.order_sale_hold
                LedgerDirection.credit total_amount 0 total_amount
                "Funds held for order." "order" (toString order.id) (some buyer.id) with
            | Except.error e => Except.error e
            | Except.ok (s, _) =>
              let stock' := listing.stock - quantity
              let listing' :=
                { listing with
                    stock := stock'
                    status := if stock' = 0 then ListingStatus.sold_out else listing.status }
              Except.ok (putListing s listing', order)

/-- `mark_order_delivered` from `orders/services.py` lines 107-129. -/
def mark_order_delivered (s : MarketSt) (oid : Nat) (actor : User)
    (note : String) (now : Int) : Except String (MarketSt × Order) :=
  match findOrder s oid with
  | none => Except.error "Order matching query does not exist."
  | some o =>
    if actor.id ≠ o.sellerId then
      Except.error "Only the seller can mark an order as delivered."
    else if o.status ≠ OrderStatus.pending_delivery then
      Except.error "Only pending-delivery orders can be marked delivered."
    else
      let o' :=
        { o with
            status := OrderStatus.delivered
            delivery_note := note
            delivered_at := some now
            auto_release_at := some (now + AUTO_RELEASE_HOURS) }
      Except.ok (putOrder s o', o')

/-- `_release_order_funds` from `orders/services.py` lines 132-200. -/
def _release_order_funds (s : MarketSt) (oid : Nat) (actor : Option User)
    (by_auto : Bool) (resolution_note : String) (now : Int) :
    Except String (MarketSt × Order) :=
  match findOrder s oid with
  | none => Except.error "Order matching query does not exist."
  | some o =>
    if o.status ∉ [OrderStatus.delivered, OrderStatus.disputed] then
      Except.error "Order cannot be completed in current state."
    else
      let gw := get_or_create_wallet s o.sellerId
      let s := gw.1
      let seller_wallet := gw.2
      if seller_wallet.held_balance < o.total_amount then
        Except.error "Seller held balance is insufficient for order release."
      else
        match appendEntrySt s seller_wallet LedgerType.order_sale_release
            LedgerDirection.transfer o.seller_net_amount o.seller_net_amount
            (-o.seller_net_amount) "Released seller net for order."
            "order" (toString o.id) (actor.map User.id) with
        | Except.error e => Except.error e
        | Except.ok (s, seller_wallet) =>
          let feeStep :
              Except String (MarketSt × Wallet) :=
            if o.platform_fee_amount > 0 then
              appendEntrySt s seller_wallet LedgerType.order_fee_capture
                LedgerDirection.debit o.platform_fee_amount 0
                (-o.platform_fee_amount) "Platform fee captured for order."
                "order" (toString o.id) (actor.map User.id)
            else Except.ok (s, seller_wallet)
          match feeStep with
          | Except.error e => Except.error e
          | Except.ok (s, _) =>
            let buyer_confirmed_at :=
              match by_auto, actor with
              | false, some a =>
                  if a.id = o.buyerId then some now else o.buyer_confirmed_at
              | _, _ => o.buyer_confirmed_at
            let o' :=
              { o with
                  status := OrderStatus.completed
                  completed_at := some now
                  buyer_confirmed_at := buyer_confirmed_at }
            let s := putOrder s o'
            let s :=
              match s.disputes.find? (fun d =>
                  d.orderId == o.id && d.status == DisputeStatus.open') with
              | some d =>
                  putDispute s
                    { d with
                        status := DisputeStatus.resolved
                        resolution_note :=
                          if resolution_note = "" then "Resolved in seller favor."
                          else resolution_note
                        resolved_by :=
                          match actor with
                          | some a => if a.is_staff then some a.id else none
                          | none => none
                        resolved_at := some now }
              | none => s
            Except.ok (s, o')

/-- `confirm_order_delivery` from `orders/services.py` lines 203-206. -/
def confirm_order_delivery (s : MarketSt) (oid : Nat) (actor : User)
    (now : Int) : Except String (MarketSt × Order) :=
  match findOrder s oid with
  | none => Except.error "Order matching query does not exist."
  | some o =>
    if actor.id ≠ o.buyerId then
      Except.error "Only the buyer can confirm delivery."
    else
      _release_order_funds s oid (some actor) false "" now

/-- `open_dispute` from `orders/services.py` lines 209-251. -/
def open_dispute (s : MarketSt) (oid : Nat) (actor : User)
    (reason details : String) : Except String MarketSt :=
  match findOrder s oid with
  | none => Except.error "Order matching query does not exist."
  | some o =>
    if actor.id ≠ o.buyerId then
      Except.error "Only the buyer can open disputes."
    else if o.status ≠ OrderStatus.delivered then
      Except.error "Disputes can only be opened after delivery."
    else
      let withDispute :
          Except String MarketSt :=
        match findDispute s oid with
        | none =>
            Except.ok
              { s with disputes := s.disputes ++
                  [{ orderId := oid
                     opened_by := actor.id
                     reason := reason
                     details := details
                     status := DisputeStatus.open'
                     resolution_note := ""
                     resolved_by := none
                     resolved_at := none }] }
        | some d =>
            if d.status = DisputeStatus.open' then
              Except.error "A dispute is already open for this order."
            else
              Except.ok
                (putDispute s
                  { d with
                      opened_by := actor.id
                      reason := reason
                      details := details
                      status := DisputeStatus.open'
                      resolution_note := ""
                      resolved_by := none
                      resolved_at := none })
      match withDispute with
      | Except.error e => Except.error e
      | Except.ok s =>
          Except.ok (putOrder s { o with status := OrderStatus.disputed })

/-- `refund_order` from `orders/services.py` lines 254-313. -/
def refund_order (s : MarketSt) (oid : Nat) (actor : Option User)
    (resolution_note : String) (now : Int) :
    Except String (MarketSt × Order) :=
  match findOrder s oid with
  | none => Except.error "Order matching query does not exist."
  | some o =>
    if o.status ∉ [OrderStatus.pending_delivery, OrderStatus.delivered,
        OrderStatus.disputed] then
      Except.error "Order cannot be refunded in current state."
    else
      let gw := get_or_create_wallet s o.sellerId
      let s := gw.1
      let seller_wallet := gw.2
      let gw2 := get_or_create_wallet s o.buyerId
      let s := gw2.1
      let buyer_wallet := gw2.2
      if seller_wallet.held_balance < o.total_amount then
        Except.error "Seller held balance is insufficient to refund this order."
      else
        match appendEntrySt s seller_wallet LedgerType.order_refund
            LedgerDirection.transfer o.total_amount 0 (-o.total_amount)
            "Held amount reversed for refunded order."
            "order" (toString o.id) (actor.map User.id) with
        | Except.error e => Except.error e
        | Except.ok (s, _) =>
          match appendEntrySt s buyer_wallet LedgerType.order_refund
              LedgerDirection.credit o.total_amount o.total_amount 0
              "Refund credited for order."
              "order" (toString o.id) (actor.map User.id) with
          | Except.error e => Except.error e
          | Except.ok (s, _) =>
            let o' :=
              { o with
                  status := OrderStatus.refunded
                  completed_at := some now }
            let s := putOrder s o'
            let s :=
              match s.disputes.find? (fun d =>
                  d.orderId == o.id && d.status == DisputeStatus.open') with
              | some d =>
                  putDispute s
                    { d with
                        status := DisputeStatus.resolved
                        resolution_note :=
                          if resolution_note = "" then "Resolved with buyer refund."
                          else resolution_note
                        resolved_by :=
                          match actor with
                          | some a => if a.is_staff then some a.id else none
                          | none => none
                        resolved_at := some now }
              | none => s
            Except.ok (s, o')

/-- The selection predicate of `process_due_auto_releases`: status is
DELIVERED with a non-null `auto_release_at ≤ now`. -/
def isDue (now : Int) (o : Order) : Bool :=
  o.status == OrderStatus.delivered &&
    (match o.auto_release_at with
     | some t => t ≤ now
     | none => false)

/-- One iteration of the sweep loop: attempt the release, count a success,
skip any failure. -/
def sweepStep (now : Int) (acc : MarketSt × Nat) (oid : Nat) : MarketSt × Nat :=
  match _release_order_funds acc.1 oid none true "" now with
  | Except.ok (s', _) => (s', acc.2 + 1)
  | Except.error _ => acc

/-- The ids selected by the sweep query (`status=DELIVERED`,
`auto_release_at` non-null and `≤ now`). -/
def dueOrderIds (s : MarketSt) (now : Int) : List Nat :=
  (s.orders.filter (isDue now)).map Order.id

/-- `process_due_auto_releases` from `orders/services.py` lines 316-335. -/
def process_due_auto_releases (s : MarketSt) (now : Int) : MarketSt × Nat :=
  (dueOrderIds s now).foldl (sweepStep now) (s, 0)

/-- `resolve_dispute_seller_win` from `orders/services.py` lines 338-341
(the dispute is identified by its order id). -/
def resolve_dispute_seller_win (s : MarketSt) (oid : Nat) (reviewer : User)
    (note : String) (now : Int) : Except String (MarketSt × Order) :=
  match findDispute s oid with
  | none => Except.error "Dispute matching query does not exist."
  | some d =>
    if d.status ≠ DisputeStatus.open' then
      Except.error "Only open disputes can be resolved."
    else
      _release_order_funds s oid (some reviewer) false note now

/-- `resolve_dispute_buyer_refund` from `orders/services.py` lines 344-347. -/
def resolve_dispute_buyer_refund (s : MarketSt) (oid : Nat) (reviewer : User)
    (note : String) (now : Int) : Except String (MarketSt × Order) :=
  match findDispute s oid with
  | none => Except.error "Dispute matching query does not exist."
  | some d =>
    if d.status ≠ DisputeStatus.open' then
      Except.error "Only open disputes can be resolved."
    else
      refund_order s oid (some reviewer) note now

/-- `release_order_by_admin` from `orders/services.py` lines 350-351. -/
def release_order_by_admin (s : MarketSt) (oid : Nat) (reviewer : User)
    (note : String) (now : Int) : Except String (MarketSt × Order) :=
  _release_order_funds s oid (some reviewer) false note now

/-- One invocation of any core operation exposed by the two service
modules (section 6 of the specification). -/
inductive MarketOp where
  | createOrder (buyer : User) (listingId quantity : Nat) (now : Int)
  | markDelivered (oid : Nat) (actor : User) (note : String) (now : Int)
  | confirmDelivery (oid : Nat) (actor : User) (now : Int)
  | releaseByAdmin (oid : Nat) (reviewer : User) (note : String) (now : Int)
  | openDispute (oid : Nat) (actor : User) (reason details : String)
  | refundOrder (oid : Nat) (actor : Option User) (note : String) (now : Int)
  | resolveSellerWin (oid : Nat) (reviewer : User) (note : String) (now : Int)
  | resolveBuyerRefund (oid : Nat) (reviewer : User) (note : String) (now : Int)
  | processAutoReleases (now : Int)
  | approveDeposit (tid : Nat) (reviewer : User) (note : String)
  | rejectDeposit (tid : Nat) (reviewer : User) (note : String)
  | reserveWithdrawal (user : User) (amount : ℚ)
      (payout_method payout_details account_title account_number bank_name : String)
  | approveWithdrawal (wid : Nat) (reviewer : User) (note : String)
  | rejectWithdrawal (wid : Nat) (reviewer : User) (note : String)
  | payWithdrawal (wid : Nat) (reviewer : User) (note payout_reference : String)

/-- Dispatch one core operation on the state.  The auto-release sweep
never raises (per-order failures are swallowed), so it is always `ok`. -/
def step (s : MarketSt) (op : MarketOp) : Except String MarketSt :=
  match op with
  | MarketOp.createOrder buyer lid qty now =>
      (create_order_from_listing s buyer lid qty now).map Prod.fst
  | MarketOp.markDelivered oid actor note now =>
      (mark_order_delivered s oid actor note now).map Prod.fst
  | MarketOp.confirmDelivery oid actor now =>
      (confirm_order_delivery s oid actor now).map Prod.fst
  | MarketOp.releaseByAdmin oid reviewer note now =>
      (release_order_by_admin s oid reviewer note now).map Prod.fst
  | MarketOp.openDispute oid actor reason details =>
      open_dispute s oid actor reason details
  | MarketOp.refundOrder oid actor note now =>
      (refund_order s oid actor note now).map Prod.fst
  | MarketOp.resolveSellerWin oid reviewer note now =>
      (resolve_dispute_seller_win s oid reviewer note now).map Prod.fst
  | MarketOp.resolveBuyerRefund oid reviewer note now =>
      (resolve_dispute_buyer_refund s oid reviewer note now).map Prod.fst
  | MarketOp.processAutoReleases now =>
      Except.ok (process_due_auto_releases s now).1
  | MarketOp.approveDeposit tid reviewer note =>
      approve_deposit s tid reviewer note
  | MarketOp.rejectDeposit tid reviewer note =>
      reject_deposit s tid reviewer note
  | MarketOp.reserveWithdrawal user amount pm pd at' an bn =>
      (reserve_withdrawal s user amount pm pd at' an bn).map Prod.fst
  | MarketOp.approveWithdrawal wid reviewer note =>
      approve_withdrawal s wid reviewer note
  | MarketOp.rejectWithdrawal wid reviewer note =>
      reject_withdrawal s wid reviewer note
  | MarketOp.payWithdrawal wid reviewer note pr =>
      pay_withdrawal s wid reviewer note pr

/-- Run a sequence of operations; a failing operation leaves the state
unchanged (the transaction is rolled back and the error is surfaced to the
acting user at the boundary). -/
def runOps (s : MarketSt) : List MarketOp → MarketSt
  | [] => s
  | op :: rest =>
      runOps (match step s op with
              | Except.ok s' => s'
              | Except.error _ => s) rest

/-- Invariant: every wallet has non-negative available and held balances. -/
def walletsNonneg (s : MarketSt) : Prop :=
  ∀ w ∈ s.wallets, 0 ≤ w.available_balance ∧ 0 ≤ w.held_balance

instance (s : MarketSt) : Decidable (walletsNonneg s) := by
  unfold walletsNonneg; infer_instance

/-- Invariant: no order is in the CANCELLED status. -/
def noCancelled (s : MarketSt) : Prop :=
  ∀ o ∈ s.orders, o.status ≠ OrderStatus.cancelled

instance (s : MarketSt) : Decidable (noCancelled s) := by
  unfold noCancelled; infer_instance

/-- An `Except` result that carries an error. -/
def isErr : Except String α → Bool
  | Except.error _ => true
  | Except.ok _ => false

instance instDecEqExcept {ε α : Type} [DecidableEq ε] [DecidableEq α] :
    DecidableEq (Except ε α) := fun a b =>
  match a, b with
  | Except.error e₁, Except.error e₂ =>
      if h : e₁ = e₂ then isTrue (by rw [h])
      else isFalse (by intro c; cases c; exact h rfl)
  | Except.ok v₁, Except.ok v₂ =>
      if h : v₁ = v₂ then isTrue (by rw [h])
      else isFalse (by intro c; cases c; exact h rfl)
  | Except.error _, Except.ok _ => isFalse (by intro c; cases c)
  | Except.ok _, Except.error _ => isFalse (by intro c; cases c)

/-- A value representable with exactly 2 decimal places (the `Decimal`
currency precision of all money fields). -/
def TwoDp (x : ℚ) : Prop :=
  ∃ k : ℤ, x = (k : ℚ) / 100

/-- The one-step order status transitions realisable by the core
operations. -/
def statusTrans (a b : OrderStatus) : Prop :=
  a = b ∨
    (a = OrderStatus.pending_delivery ∧
      (b = OrderStatus.delivered ∨ b = OrderStatus.refunded)) ∨
    (a = OrderStatus.delivered ∧
      (b = OrderStatus.completed ∨ b = OrderStatus.disputed ∨
        b = OrderStatus.refunded)) ∨
    (a = OrderStatus.disputed ∧
      (b = OrderStatus.completed ∨ b = OrderStatus.refunded))

/-- The status transitions realisable by `_release_order_funds` alone. -/
def releaseTrans (a b : OrderStatus) : Prop :=
  a = b ∨
    ((a = OrderStatus.delivered ∨ a = OrderStatus.disputed) ∧
      b = OrderStatus.completed)

/-! ### Concrete fixtures used by witnesses and counterexamples -/

def buyerU : User := { id := 1, is_staff := false }

def sellerU : User := { id := 2, is_staff := false }

def adminU : User := { id := 9, is_staff := true }

/-- The active listing of the concrete scenario: seller 2, price 500.00,
stock 3. -/
def listingInit : Listing :=
  { id := 10, sellerId := 2, price_pkr := 500, stock := 3,
    status := ListingStatus.active }

/-- Buyer wallet 5000.00 available, a seller with an empty wallet, and an
active listing priced 500.00 with stock 3. -/
def stInit : MarketSt :=
  { wallets := [{ userId := 1, available_balance := 5000, held_balance := 0 },
                { userId := 2, available_balance := 0, held_balance := 0 }]
    listings := [listingInit]
    orders := []
    disputes := []
    deposits := []
    withdrawals := []
    ledger := []
    nextOrderId := 1
    nextWithdrawalId := 1 }

/-- The order produced by buying 2 units at 500.00 from `stInit`. -/
def pendingOrder : Order :=
  { id := 1, buyerId := 1, sellerId := 2, listingId := 10, quantity := 2
    unit_price := 500, total_amount := 1000, platform_fee_amount := 50
    seller_net_amount := 950, status := OrderStatus.pending_delivery
    delivery_note := "", paid_at := some 100, delivered_at := none
    auto_release_at := none, buyer_confirmed_at := none, completed_at := none }

/-- State after the purchase: buyer paid 1000.00, seller holds 1000.00. -/
def stPending : MarketSt :=
  { wallets := [{ userId := 1, available_balance := 4000, held_balance := 0 },
                { userId := 2, available_balance := 0, held_balance := 1000 }]
    listings := [{ id := 10, sellerId := 2, price_pkr := 500, stock := 1,
                   status := ListingStatus.active }]
    orders := [pendingOrder]
    disputes := []
    deposits := []
    withdrawals := []
    ledger := []
    nextOrderId := 2
    nextWithdrawalId := 1 }

/-- The same order once the seller marked it delivered at time 110. -/
def deliveredOrder : Order :=
  { pendingOrder with
      status := OrderStatus.delivered
      delivered_at := some 110
      auto_release_at := some 182 }

/-- State with the delivered order awaiting confirmation. -/
def stDelivered : MarketSt :=
  { stPending with orders := [deliveredOrder] }

/-- The seller wallet row of `stDelivered`. -/
def wSellerHeld : Wallet :=
  { userId := 2, available_balance := 0, held_balance := 1000 }

/-- State whose only order is in a terminal status. -/
def stCompleted : MarketSt :=
  { stPending with
      orders := [{ pendingOrder with status := OrderStatus.completed }] }

/-- A pending withdrawal request of 300.00. -/
def reqPending : WithdrawalRequest :=
  { id := 7, userId := 1, amount := 300
    payout_method := "easypaisa", account_title := "T"
    account_number := "N", bank_name := ""
    payout_details := "T | N"
    status := WithdrawalStatus.pending }

/-- A pending withdrawal request of 300.00 whose holder has 300.00 held. -/
def stWithdrawPending : MarketSt :=
  { wallets := [{ userId := 1, available_balance := 0, held_balance := 300 }]
    listings := []
    orders := []
    disputes := []
    deposits := []
    withdrawals := [reqPending]
    ledger := []
    nextOrderId := 1
    nextWithdrawalId := 8 }

/-- The state `pay_withdrawal` produces from `stWithdrawPending` when the
admin marks the still-pending request paid. -/
def stWithdrawPaid : MarketSt :=
  { wallets := [{ userId := 1, available_balance := 0, held_balance := 0 }]
    listings := []
    orders := []
    disputes := []
    deposits := []
    withdrawals := [{ reqPending with status := WithdrawalStatus.paid }]
    ledger := [{ walletUser := 1
                 entry_type := LedgerType.withdrawal_paid
                 direction := LedgerDirection.debit
                 amount := 300
                 available_delta := 0
                 held_delta := -300
                 available_balance_after := 0
                 held_balance_after := 0
                 note := "Withdrawal marked as paid by finance admin."
                 reference_type := "withdrawal_request"
                 reference_id := "7"
                 created_by := some 9 }]
    nextOrderId := 1
    nextWithdrawalId := 8 }

/-- The exact state `create_order_from_listing` produces from `stInit`
when the buyer purchases 2 units at 500.00 at time 100. -/
def stAfterCreate : MarketSt :=
  { wallets := [{ userId := 1, available_balance := 4000, held_balance := 0 },
                { userId := 2, available_balance := 0, held_balance := 1000 }]
    listings := [{ id := 10, sellerId := 2, price_pkr := 500, stock := 1,
                   status := ListingStatus.active }]
    orders := [pendingOrder]
    disputes := []
    deposits := []
    withdrawals := []
    ledger := [{ walletUser := 1
                 entry_type := LedgerType.order_payment
                 direction := LedgerDirection.debit
                 amount := 1000
                 available_delta := -1000
                 held_delta := 0
                 available_balance_after := 4000
                 held_balance_after := 0
                 note := "Payment for order."
                 reference_type := "order"
                 reference_id := "1"
                 created_by := some 1 },
               { walletUser := 2
                 entry_type := LedgerType.order_sale_hold
                 direction := LedgerDirection.credit
                 amount := 1000
                 available_delta := 0
                 held_delta := 1000
                 available_balance_after := 0
                 held_balance_after := 1000
                 note := "Funds held for order."
                 reference_type := "order"
                 reference_id := "1"
                 created_by := some 1 }]
    nextOrderId := 2
    nextWithdrawalId := 1 }

/-- `stAfterCreate` once the seller marked the order delivered at 110. -/
def stScenDelivered : MarketSt :=
  { stAfterCreate with orders := [deliveredOrder] }

/-- The order after the buyer confirmed at time 120. -/
def completedOrder : Order :=
  { deliveredOrder with
      status := OrderStatus.completed
      buyer_confirmed_at := some 120
      completed_at := some 120 }

/-- The final state of the concrete scenario: net 950.00 released to the
seller, 50.00 fee captured from held funds, order completed. -/
def stScenFinal : MarketSt :=
  { stScenDelivered with
      wallets := [{ userId := 1, available_balance := 4000, held_balance := 0 },
                  { userId := 2, available_balance := 950, held_balance := 0 }]
      orders := [completedOrder]
      ledger := stAfterCreate.ledger ++
        [{ walletUser := 2
           entry_type := LedgerType.order_sale_release
           direction := LedgerDirection.transfer
           amount := 950
           available_delta := 950
           held_delta := -950
           available_balance_after := 950
           held_balance_after := 50
           note := "Released seller net for order."
           reference_type := "order"
           reference_id := "1"
           created_by := some 1 },
         { walletUser := 2
           entry_type := LedgerType.order_fee_capture
           direction := LedgerDirection.debit
           amount := 50
           available_delta := 0
           held_delta := -50
           available_balance_after := 950
           held_balance_after := 0
           note := "Platform fee captured for order."
           reference_type := "order"
           reference_id := "1"
           created_by := some 1 }] }

/-- A pending deposit ticket of 200.00 for the buyer. -/
def stDepositPending : MarketSt :=
  { stInit with
      deposits := [{ id := 3, userId := 1, amount := 200
                     status := DepositStatus.pending }] }

/-! ### Money arithmetic -/

theorem roundHalfUp_intCast (k : ℤ) : roundHalfUp (k : ℚ) = k := by
  have hfl : ∀ m : ℤ, ⌊(m : ℚ) + 1 / 2⌋ = m := by
    intro m
    rw [Int.floor_int_add]
    norm_num
  unfold roundHalfUp
  split
  · exact hfl k
  · have hneg : -(k : ℚ) = ((-k : ℤ) : ℚ) := by push_cast; ring
    rw [hneg, hfl (-k)]
    simp

theorem twoDp_quantize (x : ℚ) : TwoDp (quantize x) :=
  ⟨roundHalfUp (x * 100), rfl⟩

theorem quantize_eq_of_twoDp {x : ℚ} (h : TwoDp x) : quantize x = x := by
  obtain ⟨k, rfl⟩ := h
  unfold quantize
  rw [div_mul_cancel₀ (k : ℚ) (by norm_num : (100 : ℚ) ≠ 0), roundHalfUp_intCast]

theorem twoDp_zero : TwoDp 0 := ⟨0, by norm_num⟩

theorem twoDp_sub {a b : ℚ} (ha : TwoDp a) (hb : TwoDp b) : TwoDp (a - b) := by
  obtain ⟨k, rfl⟩ := ha
  obtain ⟨m, rfl⟩ := hb
  exact ⟨k - m, by push_cast; ring⟩

theorem calc_fee_eq_clamp (t : ℚ) :
    (calc_fee_and_net t).1 =
      min (max 0 (quantize (t * PLATFORM_FEE_PERCENT / 100))) t := by
  unfold calc_fee_and_net
  set f := quantize (t * PLATFORM_FEE_PERCENT / 100) with hf
  by_cases h0 : f < 0
  · have hmax : max 0 f = 0 := max_eq_left h0.le
    by_cases h1 : (0 : ℚ) > t
    · simp [h0, h1, hmax, min_eq_right h1.le]
    · simp [h0, h1, hmax, min_eq_left (not_lt.mp h1)]
  · have hmax : max 0 f = f := max_eq_right (not_lt.mp h0)
    by_cases h1 : f > t
    · simp [h0, h1, hmax, min_eq_right h1.le]
    · simp [h0, h1, hmax, min_eq_left (not_lt.mp h1)]

theorem twoDp_calc_fee (t : ℚ) (ht : TwoDp t) : TwoDp (calc_fee_and_net t).1 := by
  unfold calc_fee_and_net
  dsimp only
  split
  · split
    · exact ht
    · exact twoDp_zero
  · split
    · exact ht
    · exact twoDp_quantize _

theorem calc_net_eq (t : ℚ) (ht : TwoDp t) :
    (calc_fee_and_net t).2 = t - (calc_fee_and_net t).1 := by
  have h2 : (calc_fee_and_net t).2 = quantize (t - (calc_fee_and_net t).1) := rfl
  rw [h2, quantize_eq_of_twoDp (twoDp_sub ht (twoDp_calc_fee t ht))]

/-- Inversion of a successful `create_order_from_listing`: the money
fields of the created order. -/
theorem create_order_fields {s : MarketSt} {buyer : User} {lid qty : Nat}
    {now : Int} {s' : MarketSt} {o : Order}
    (h : create_order_from_listing s buyer lid qty now = Except.ok (s', o)) :
    ∃ listing, findListing s lid = some listing ∧
      o.unit_price = listing.price_pkr ∧
      o.quantity = qty ∧
      o.total_amount = quantize (listing.price_pkr * (qty : ℚ)) ∧
      o.platform_fee_amount = (calc_fee_and_net o.total_amount).1 ∧
      o.seller_net_amount = (calc_fee_and_net o.total_amount).2 ∧
      o.status = OrderStatus.pending_delivery := by
  unfold create_order_from_listing at h
  split at h
  · exact absurd h (by simp)
  split at h
  · exact absurd h (by simp)
  rename_i listing hfound
  split at h
  · exact absurd h (by simp)
  split at h
  · exact absurd h (by simp)
  split at h
  · exact absurd h (by simp)
  dsimp only at h
  split at h
  · exact absurd h (by simp)
  split at h
  · exact absurd h (by simp)
  split at h
  · exact absurd h (by simp)
  rw [Except.ok.injEq, Prod.mk.injEq] at h
  refine ⟨listing, hfound, ?_⟩
  rw [← h.2]
  exact ⟨rfl, rfl, rfl, rfl, rfl, rfl⟩

/-- C5: for every created order, `total_amount` is the quantized
`unit_price × quantity`, `platform_fee_amount` is the quantized 5% fee
clamped to `[0, total_amount]`, `seller_net_amount` is the difference, and
fee plus net equals the total exactly. -/
theorem order_money_formulas {s : MarketSt} {buyer : User} {lid qty : Nat}
    {now : Int} {s' : MarketSt} {o : Order} {listing : Listing}
    (hl : findListing s lid = some listing)
    (h : create_order_from_listing s buyer lid qty now = Except.ok (s', o)) :
    o.total_amount = quantize (listing.price_pkr * (qty : ℚ)) ∧
    o.platform_fee_amount =
      min (max 0 (quantize (o.total_amount * PLATFORM_FEE_PERCENT / 100)))
        o.total_amount ∧
    o.seller_net_amount = o.total_amount - o.platform_fee_amount ∧
    o.platform_fee_amount + o.seller_net_amount = o.total_amount := by
  obtain ⟨listing', hl', hup, hqty, htotal, hfee, hnet, hst⟩ := create_order_fields h
  rw [hl] at hl'
  cases hl'
  have ht2 : TwoDp o.total_amount := htotal ▸ twoDp_quantize _
  have hnet' : o.seller_net_amount = o.total_amount - o.platform_fee_amount := by
    rw [hnet, hfee, calc_net_eq _ ht2]
  refine ⟨htotal, ?_, hnet', by rw [hnet']; ring⟩
  rw [hfee, calc_fee_eq_clamp]

/-- Witness for `order_money_formulas` at the concrete purchase of
`stInit` (2 units at 500.00). -/
theorem order_money_formulas_witness :
    pendingOrder.total_amount = quantize (listingInit.price_pkr * ((2 : Nat) : ℚ)) ∧
    pendingOrder.platform_fee_amount =
      min (max 0 (quantize (pendingOrder.total_amount * PLATFORM_FEE_PERCENT / 100)))
        pendingOrder.total_amount ∧
    pendingOrder.seller_net_amount =
      pendingOrder.total_amount - pendingOrder.platform_fee_amount ∧
    pendingOrder.platform_fee_amount + pendingOrder.seller_net_amount =
      pendingOrder.total_amount :=
  order_money_formulas
    (by decide : findListing stInit 10 = some listingInit)
    (by with_unfolding_all rfl :
      create_order_from_listing stInit buyerU 10 2 100 =
        Except.ok (stAfterCreate, pendingOrder))

/-! ### The ledger-append primitive -/

/-- C2: `append_wallet_entry` fails exactly when one of the two balances
would become negative; on success both deltas are applied in one step and
the returned ledger entry snapshots the post-application balances; the
state-level call additionally appends exactly that entry to the ledger.
On failure the transaction is rolled back, which the embedding renders by
the `Except.error` result carrying no state. -/
theorem append_wallet_entry_spec (w : Wallet) (t : LedgerType)
    (d : LedgerDirection) (amount ad hd : ℚ) (note rt ri : String)
    (cb : Option Nat) (s : MarketSt) :
    ((∃ e, append_wallet_entry w t d amount ad hd note rt ri cb =
        Except.error e) ↔
      (w.available_balance + ad < 0 ∨ w.held_balance + hd < 0)) ∧
    (∀ w' entry,
      append_wallet_entry w t d amount ad hd note rt ri cb =
          Except.ok (w', entry) →
      w'.available_balance = w.available_balance + ad ∧
      w'.held_balance = w.held_balance + hd ∧
      w'.userId = w.userId ∧
      entry.available_delta = ad ∧
      entry.held_delta = hd ∧
      entry.amount = amount ∧
      entry.available_balance_after = w'.available_balance ∧
      entry.held_balance_after = w'.held_balance) ∧
    (∀ s' w2,
      appendEntrySt s w t d amount ad hd note rt ri cb = Except.ok (s', w2) →
      ∃ entry,
        append_wallet_entry w t d amount ad hd note rt ri cb =
          Except.ok (w2, entry) ∧
        s'.ledger = s.ledger ++ [entry] ∧
        s'.wallets = (putWallet s w2).wallets ∧
        s'.orders = s.orders ∧
        s'.listings = s.listings ∧
        s'.disputes = s.disputes ∧
        s'.deposits = s.deposits ∧
        s'.withdrawals = s.withdrawals) := by
  refine ⟨?_, ?_, ?_⟩
  · constructor
    · rintro ⟨e, he⟩
      by_contra hneg
      unfold append_wallet_entry at he
      rw [if_neg hneg] at he
      exact absurd he (by simp)
    · intro hneg
      refine ⟨"Wallet balance cannot become negative.", ?_⟩
      unfold append_wallet_entry
      rw [if_pos hneg]
  · intro w' entry h
    unfold append_wallet_entry at h
    dsimp only at h
    split at h
    · exact absurd h (by simp)
    · rw [Except.ok.injEq, Prod.mk.injEq] at h
      obtain ⟨hw, he⟩ := h
      rw [← hw, ← he]
      exact ⟨rfl, rfl, rfl, rfl, rfl, rfl, rfl, rfl⟩
  · intro s' w2 h
    unfold appendEntrySt at h
    split at h
    · exact absurd h (by simp)
    · rename_i w1 e1 hp
      rw [Except.ok.injEq, Prod.mk.injEq] at h
      obtain ⟨hs, hw⟩ := h
      subst hw
      subst hs
      exact ⟨e1, hp, rfl, rfl, rfl, rfl, rfl, rfl, rfl⟩

/-- Witness for `append_wallet_entry_spec`: debiting 5000.00 from an
empty wallet is rejected, and the state-level append of the concrete
purchase payment produces the recorded entry. -/
theorem append_wallet_entry_spec_witness :
    ∃ e, append_wallet_entry
        { userId := 1, available_balance := 0, held_balance := 0 }
        LedgerType.adjustment LedgerDirection.debit 5000 (-5000) 0
        "" "" "" none = Except.error e :=
  (append_wallet_entry_spec
      { userId := 1, available_balance := 0, held_balance := 0 }
      LedgerType.adjustment LedgerDirection.debit 5000 (-5000) 0
      "" "" "" none stInit).1.mpr
    (by with_unfolding_all decide)

/-! ### Non-negativity machinery -/

theorem get_or_create_nonneg (s : MarketSt) (uid : Nat) (h : walletsNonneg s) :
    walletsNonneg (get_or_create_wallet s uid).1 ∧
    0 ≤ (get_or_create_wallet s uid).2.available_balance ∧
    0 ≤ (get_or_create_wallet s uid).2.held_balance := by
  unfold get_or_create_wallet
  split
  · rename_i w hw
    unfold findWallet at hw
    exact ⟨h, h w (List.mem_of_find?_eq_some hw)⟩
  · refine ⟨?_, le_refl 0, le_refl 0⟩
    intro w hw
    rcases List.mem_append.mp hw with h1 | h2
    · exact h w h1
    · simp only [List.mem_singleton] at h2
      subst h2
      exact ⟨le_refl 0, le_refl 0⟩

theorem append_wallet_entry_nonneg {w : Wallet} {t : LedgerType}
    {d : LedgerDirection} {a ad hd : ℚ} {n rt ri : String} {cb : Option Nat}
    {w' : Wallet} {e : LedgerEntry}
    (h : append_wallet_entry w t d a ad hd n rt ri cb = Except.ok (w', e)) :
    0 ≤ w'.available_balance ∧ 0 ≤ w'.held_balance := by
  unfold append_wallet_entry at h
  dsimp only at h
  split at h
  · exact absurd h (by simp)
  · rename_i hcond
    push_neg at hcond
    rw [Except.ok.injEq, Prod.mk.injEq] at h
    obtain ⟨hw, _⟩ := h
    rw [← hw]
    exact hcond

theorem appendEntrySt_nonneg {s : MarketSt} {w : Wallet} {t : LedgerType}
    {d : LedgerDirection} {a ad hd : ℚ} {n rt ri : String} {cb : Option Nat}
    {s' : MarketSt} {w' : Wallet}
    (h : appendEntrySt s w t d a ad hd n rt ri cb = Except.ok (s', w'))
    (hs : walletsNonneg s) :
    walletsNonneg s' ∧ 0 ≤ w'.available_balance ∧ 0 ≤ w'.held_balance := by
  unfold appendEntrySt at h
  split at h
  · exact absurd h (by simp)
  · rename_i w1 e1 hp
    rw [Except.ok.injEq, Prod.mk.injEq] at h
    obtain ⟨hrec, hw⟩ := h
    subst hw
    subst hrec
    have hnn := append_wallet_entry_nonneg hp
    refine ⟨?_, hnn⟩
    intro x hx
    rcases List.mem_map.mp hx with ⟨y, hy, hxy⟩
    split at hxy
    · subst hxy
      exact hnn
    · subst hxy
      exact hs y hy

theorem approve_deposit_nonneg {s : MarketSt} {tid : Nat} {r : User}
    {note : String} {s' : MarketSt} (hs : walletsNonneg s)
    (h : approve_deposit s tid r note = Except.ok s') : walletsNonneg s' := by
  unfold approve_deposit at h
  split at h
  · exact absurd h (by simp)
  split at h
  · exact absurd h (by simp)
  dsimp only at h
  split at h
  · exact absurd h (by simp)
  rename_i s1 w1 happ
  rw [Except.ok.injEq] at h
  subst h
  exact (appendEntrySt_nonneg happ (get_or_create_nonneg s _ hs).1).1

theorem reject_deposit_nonneg {s : MarketSt} {tid : Nat} {r : User}
    {note : String} {s' : MarketSt} (hs : walletsNonneg s)
    (h : reject_deposit s tid r note = Except.ok s') : walletsNonneg s' := by
  unfold reject_deposit at h
  split at h
  · exact absurd h (by simp)
  split at h
  · exact absurd h (by simp)
  rw [Except.ok.injEq] at h
  subst h
  exact hs

theorem reserve_withdrawal_nonneg {s : MarketSt} {u : User} {amount : ℚ}
    {pm pd at' an bn : String} {s' : MarketSt} {r : WithdrawalRequest}
    (hs : walletsNonneg s)
    (h : reserve_withdrawal s u amount pm pd at' an bn = Except.ok (s', r)) :
    walletsNonneg s' := by
  unfold reserve_withdrawal at h
  split at h
  · exact absurd h (by simp)
  split at h
  · exact absurd h (by simp)
  dsimp only at h
  generalize (if pd.trim ≠ "" ∧ at'.trim = "" then "Manual payout details" else at'.trim) = tV at h
  generalize (if pd.trim ≠ "" ∧ an.trim = "" then "See payout details" else an.trim) = nV at h
  generalize (if pd.trim = ""
      then (if bn.trim ≠ "" then (tV ++ " | " ++ nV) ++ " | " ++ bn.trim
            else tV ++ " | " ++ nV)
      else pd.trim) = pdV at h
  split at h
  · exact Except.noConfusion h
  split at h
  · exact Except.noConfusion h
  split at h
  · exact Except.noConfusion h
  split at h
  · exact Except.noConfusion h
  split at h
  · exact Except.noConfusion h
  rename_i s1 w1 happ
  rw [Except.ok.injEq, Prod.mk.injEq] at h
  obtain ⟨h1, _⟩ := h
  subst h1
  exact (appendEntrySt_nonneg happ (get_or_create_nonneg s _ hs).1).1

theorem approve_withdrawal_nonneg {s : MarketSt} {wid : Nat} {r : User}
    {note : String} {s' : MarketSt} (hs : walletsNonneg s)
    (h : approve_withdrawal s wid r note = Except.ok s') : walletsNonneg s' := by
  unfold approve_withdrawal at h
  split at h
  · exact absurd h (by simp)
  split at h
  · exact absurd h (by simp)
  rw [Except.ok.injEq] at h
  subst h
  exact hs

theorem reject_withdrawal_nonneg {s : MarketSt} {wid : Nat} {r : User}
    {note : String} {s' : MarketSt} (hs : walletsNonneg s)
    (h : reject_withdrawal s wid r note = Except.ok s') : walletsNonneg s' := by
  unfold reject_withdrawal at h
  split at h
  · exact absurd h (by simp)
  split at h
  · exact absurd h (by simp)
  dsimp only at h
  split at h
  · exact absurd h (by simp)
  split at h
  · exact absurd h (by simp)
  rename_i s1 w1 happ
  rw [Except.ok.injEq] at h
  subst h
  exact (appendEntrySt_nonneg happ (get_or_create_nonneg s _ hs).1).1

theorem pay_withdrawal_nonneg {s : MarketSt} {wid : Nat} {r : User}
    {note pr : String} {s' : MarketSt} (hs : walletsNonneg s)
    (h : pay_withdrawal s wid r note pr = Except.ok s') : walletsNonneg s' := by
  unfold pay_withdrawal at h
  split at h
  · exact absurd h (by simp)
  split at h
  · exact absurd h (by simp)
  dsimp only at h
  split at h
  · exact absurd h (by simp)
  split at h
  · exact absurd h (by simp)
  rename_i s1 w1 happ
  rw [Except.ok.injEq] at h
  subst h
  exact (appendEntrySt_nonneg happ (get_or_create_nonneg s _ hs).1).1

theorem create_order_nonneg {s : MarketSt} {buyer : User} {lid qty : Nat}
    {now : Int} {s' : MarketSt} {o : Order} (hs : walletsNonneg s)
    (h : create_order_from_listing s buyer lid qty now = Except.ok (s', o)) :
    walletsNonneg s' := by
  unfold create_order_from_listing at h
  split at h
  · exact absurd h (by simp)
  split at h
  · exact absurd h (by simp)
  split at h
  · exact absurd h (by simp)
  split at h
  · exact absurd h (by simp)
  split at h
  · exact absurd h (by simp)
  dsimp only at h
  split at h
  · exact absurd h (by simp)
  split at h
  · exact absurd h (by simp)
  rename_i s1 w1 happ1
  split at h
  · exact absurd h (by simp)
  rename_i s2 w2 happ2
  rw [Except.ok.injEq, Prod.mk.injEq] at h
  obtain ⟨h1, _⟩ := h
  subst h1
  have hn1 : walletsNonneg s1 :=
    (appendEntrySt_nonneg happ1
      (get_or_create_nonneg (get_or_create_wallet s buyer.id).1 _
        (get_or_create_nonneg s _ hs).1).1).1
  exact (appendEntrySt_nonneg happ2 hn1).1

theorem mark_delivered_nonneg {s : MarketSt} {oid : Nat} {actor : User}
    {note : String} {now : Int} {s' : MarketSt} {o : Order}
    (hs : walletsNonneg s)
    (h : mark_order_delivered s oid actor note now = Except.ok (s', o)) :
    walletsNonneg s' := by
  unfold mark_order_delivered at h
  split at h
  · exact absurd h (by simp)
  split at h
  · exact absurd h (by simp)
  split at h
  · exact absurd h (by simp)
  rw [Except.ok.injEq, Prod.mk.injEq] at h
  obtain ⟨h1, _⟩ := h
  subst h1
  exact hs

theorem release_nonneg {s : MarketSt} {oid : Nat} {actor : Option User}
    {ba : Bool} {note : String} {now : Int} {s' : MarketSt} {o' : Order}
    (hs : walletsNonneg s)
    (h : _release_order_funds s oid actor ba note now = Except.ok (s', o')) :
    walletsNonneg s' := by
  unfold _release_order_funds at h
  split at h
  · exact absurd h (by simp)
  split at h
  · exact absurd h (by simp)
  dsimp only at h
  split at h
  · exact absurd h (by simp)
  split at h
  · exact absurd h (by simp)
  rename_i s1 w1 happ1
  split at h
  · exact absurd h (by simp)
  rename_i s2 w2 hfee
  have hn1 : walletsNonneg s1 :=
    (appendEntrySt_nonneg happ1 (get_or_create_nonneg s _ hs).1).1
  have hn2 : walletsNonneg s2 := by
    split at hfee
    · exact (appendEntrySt_nonneg hfee hn1).1
    · rw [Except.ok.injEq, Prod.mk.injEq] at hfee
      obtain ⟨h2, _⟩ := hfee
      subst h2
      exact hn1
  split at h
  · rw [Except.ok.injEq, Prod.mk.injEq] at h
    obtain ⟨h1, _⟩ := h
    subst h1
    exact hn2
  · rw [Except.ok.injEq, Prod.mk.injEq] at h
    obtain ⟨h1, _⟩ := h
    subst h1
    exact hn2

theorem confirm_nonneg {s : MarketSt} {oid : Nat} {actor : User} {now : Int}
    {s' : MarketSt} {o' : Order} (hs : walletsNonneg s)
    (h : confirm_order_delivery s oid actor now = Except.ok (s', o')) :
    walletsNonneg s' := by
  unfold confirm_order_delivery at h
  split at h
  · exact absurd h (by simp)
  split at h
  · exact absurd h (by simp)
  exact release_nonneg hs h

theorem open_dispute_nonneg {s : MarketSt} {oid : Nat} {actor : User}
    {reason details : String} {s' : MarketSt} (hs : walletsNonneg s)
    (h : open_dispute s oid actor reason details = Except.ok s') :
    walletsNonneg s' := by
  unfold open_dispute at h
  split at h
  · exact absurd h (by simp)
  split at h
  · exact absurd h (by simp)
  split at h
  · exact absurd h (by simp)
  dsimp only at h
  split at h
  · exact absurd h (by simp)
  rename_i s1 hwd
  rw [Except.ok.injEq] at h
  subst h
  split at hwd
  · rw [Except.ok.injEq] at hwd
    subst hwd
    exact hs
  · split at hwd
    · exact absurd hwd (by simp)
    · rw [Except.ok.injEq] at hwd
      subst hwd
      exact hs

theorem refund_nonneg {s : MarketSt} {oid : Nat} {actor : Option User}
    {note : String} {now : Int} {s' : MarketSt} {o' : Order}
    (hs : walletsNonneg s)
    (h : refund_order s oid actor note now = Except.ok (s', o')) :
    walletsNonneg s' := by
  unfold refund_order at h
  split at h
  · exact absurd h (by simp)
  split at h
  · exact absurd h (by simp)
  dsimp only at h
  split at h
  · exact absurd h (by simp)
  split at h
  · exact absurd h (by simp)
  rename_i s1 w1 happ1
  split at h
  · exact absurd h (by simp)
  rename_i s2 w2 happ2
  have hn1 : walletsNonneg s1 :=
    (appendEntrySt_nonneg happ1
      (get_or_create_nonneg (get_or_create_wallet s _).1 _
        (get_or_create_nonneg s _ hs).1).1).1
  have hn2 : walletsNonneg s2 := (appendEntrySt_nonneg happ2 hn1).1
  split at h
  · rw [Except.ok.injEq, Prod.mk.injEq] at h
    obtain ⟨h1, _⟩ := h
    subst h1
    exact hn2
  · rw [Except.ok.injEq, Prod.mk.injEq] at h
    obtain ⟨h1, _⟩ := h
    subst h1
    exact hn2

theorem sweep_nonneg (now : Int) (l : List Nat) (acc : MarketSt × Nat)
    (h : walletsNonneg acc.1) :
    walletsNonneg (l.foldl (sweepStep now) acc).1 := by
  induction l generalizing acc with
  | nil => exact h
  | cons oid rest ih =>
      rw [List.foldl_cons]
      refine ih _ ?_
      unfold sweepStep
      split
      · rename_i s1 o1 hrel
        exact release_nonneg h hrel
      · exact h

theorem resolve_seller_win_nonneg {s : MarketSt} {oid : Nat} {r : User}
    {note : String} {now : Int} {s' : MarketSt} {o' : Order}
    (hs : walletsNonneg s)
    (h : resolve_dispute_seller_win s oid r note now = Except.ok (s', o')) :
    walletsNonneg s' := by
  unfold resolve_dispute_seller_win at h
  split at h
  · exact absurd h (by simp)
  split at h
  · exact absurd h (by simp)
  exact release_nonneg hs h

theorem resolve_buyer_refund_nonneg {s : MarketSt} {oid : Nat} {r : User}
    {note : String} {now : Int} {s' : MarketSt} {o' : Order}
    (hs : walletsNonneg s)
    (h : resolve_dispute_buyer_refund s oid r note now = Except.ok (s', o')) :
    walletsNonneg s' := by
  unfold resolve_dispute_buyer_refund at h
  split at h
  · exact absurd h (by simp)
  split at h
  · exact absurd h (by simp)
  exact refund_nonneg hs h

theorem map_fst_ok {α : Type} {x : Except String (MarketSt × α)} {s' : MarketSt}
    (h : x.map Prod.fst = Except.ok s') : ∃ r, x = Except.ok (s', r) := by
  cases x with
  | error e => simp [Except.map] at h
  | ok p =>
      simp only [Except.map, Except.ok.injEq] at h
      exact ⟨p.2, by rw [← h]⟩

/-- C1: every core operation (order creation, delivery confirmation, fund
release, refund, dispute resolution, auto-release sweep, deposit
approval/rejection, withdrawal reserve/approve/reject/pay) preserves
non-negativity of every wallet's available and held balances; a failing
operation returns `Except.error` and leaves no state at all. -/
theorem step_preserves_nonneg (s : MarketSt) (op : MarketOp) (s' : MarketSt)
    (hs : walletsNonneg s) (h : step s op = Except.ok s') :
    walletsNonneg s' := by
  cases op with
  | createOrder buyer lid qty now =>
      simp only [step] at h
      obtain ⟨r, hf⟩ := map_fst_ok h
      exact create_order_nonneg hs hf
  | markDelivered oid actor note now =>
      simp only [step] at h
      obtain ⟨r, hf⟩ := map_fst_ok h
      exact mark_delivered_nonneg hs hf
  | confirmDelivery oid actor now =>
      simp only [step] at h
      obtain ⟨r, hf⟩ := map_fst_ok h
      exact confirm_nonneg hs hf
  | releaseByAdmin oid reviewer note now =>
      simp only [step, release_order_by_admin] at h
      obtain ⟨r, hf⟩ := map_fst_ok h
      exact release_nonneg hs hf
  | openDispute oid actor reason details =>
      simp only [step] at h
      exact open_dispute_nonneg hs h
  | refundOrder oid actor note now =>
      simp only [step] at h
      obtain ⟨r, hf⟩ := map_fst_ok h
      exact refund_nonneg hs hf
  | resolveSellerWin oid reviewer note now =>
      simp only [step] at h
      obtain ⟨r, hf⟩ := map_fst_ok h
      exact resolve_seller_win_nonneg hs hf
  | resolveBuyerRefund oid reviewer note now =>
      simp only [step] at h
      obtain ⟨r, hf⟩ := map_fst_ok h
      exact resolve_buyer_refund_nonneg hs hf
  | processAutoReleases now =>
      simp only [step, Except.ok.injEq] at h
      subst h
      exact sweep_nonneg now (dueOrderIds s now) (s, 0) hs
  | approveDeposit tid reviewer note =>
      simp only [step] at h
      exact approve_deposit_nonneg hs h
  | rejectDeposit tid reviewer note =>
      simp only [step] at h
      exact reject_deposit_nonneg hs h
  | reserveWithdrawal u amount pm pd at' an bn =>
      simp only [step] at h
      obtain ⟨r, hf⟩ := map_fst_ok h
      exact reserve_withdrawal_nonneg hs hf
  | approveWithdrawal wid reviewer note =>
      simp only [step] at h
      exact approve_withdrawal_nonneg hs h
  | rejectWithdrawal wid reviewer note =>
      simp only [step] at h
      exact reject_withdrawal_nonneg hs h
  | payWithdrawal wid reviewer note pr =>
      simp only [step] at h
      exact pay_withdrawal_nonneg hs h

/-- Witness for `step_preserves_nonneg`: the concrete purchase step from
`stInit` keeps every balance non-negative. -/
theorem step_preserves_nonneg_witness : walletsNonneg stAfterCreate :=
  step_preserves_nonneg stInit (MarketOp.createOrder buyerU 10 2 100)
    stAfterCreate (by decide) (by with_unfolding_all rfl)

/-! ### Order-tracking machinery -/

theorem mem_map_if {α : Type} {l : List α} {c : α → Bool} {u x' : α}
    (h : x' ∈ l.map (fun x => if c x then u else x)) : x' = u ∨ x' ∈ l := by
  rcases List.mem_map.mp h with ⟨y, hy, hxy⟩
  split at hxy
  · exact Or.inl hxy.symm
  · exact Or.inr (hxy ▸ hy)

theorem find?_map_if_eq {l : List Order} {oid : Nat} {o : Order}
    (h : l.find? (fun x => x.id == oid) = some o) (o' : Order)
    (hid : o'.id = o.id) :
    (l.map (fun x => if x.id == o'.id then o' else x)).find?
      (fun x => x.id == oid) = some o' := by
  have hoid : (o.id == oid) = true := by
    have := List.find?_some h
    simpa using this
  induction l with
  | nil => exact absurd h (by simp)
  | cons x xs ih =>
      by_cases hx : (x.id == oid) = true
      · rw [List.find?_cons_of_pos (p := fun (y : Order) => y.id == oid) _ hx,
          Option.some.injEq] at h
        subst h
        have hhead : (x.id == o'.id) = true := by
          rw [hid]
          exact beq_self_eq_true x.id
        simp only [List.map_cons, if_pos hhead]
        refine List.find?_cons_of_pos (p := fun (y : Order) => y.id == oid) _ ?_
        show (o'.id == oid) = true
        rw [hid]
        exact hx
      · rw [List.find?_cons_of_neg (p := fun (y : Order) => y.id == oid) _
          (by simpa using hx)] at h
        have hhead : ¬ (x.id == o'.id) = true := by
          intro hc
          apply hx
          have h1 : x.id = o'.id := eq_of_beq hc
          have h2 : o.id = oid := eq_of_beq hoid
          show (x.id == oid) = true
          rw [h1, hid, h2]
          exact beq_self_eq_true oid
        simp only [List.map_cons, if_neg hhead]
        rw [List.find?_cons_of_neg (p := fun (y : Order) => y.id == oid) _
          (by simpa using hx)]
        exact ih h

theorem find?_map_if_ne {l : List Order} {oid : Nat} (o' : Order)
    (hid : ¬ o'.id = oid) :
    (l.map (fun x => if x.id == o'.id then o' else x)).find?
      (fun x => x.id == oid) = l.find? (fun x => x.id == oid) := by
  induction l with
  | nil => rfl
  | cons x xs ih =>
      simp only [List.map_cons]
      by_cases hx : (x.id == o'.id) = true
      · rw [if_pos hx]
        have hxoid : ¬ (x.id == oid) = true := by
          intro hc
          exact hid ((eq_of_beq hx).symm.trans (eq_of_beq hc))
        have hooid : ¬ (o'.id == oid) = true := by
          intro hc
          exact hid (eq_of_beq hc)
        rw [List.find?_cons_of_neg (p := fun (y : Order) => y.id == oid) _
            (by simpa using hooid),
          List.find?_cons_of_neg (p := fun (y : Order) => y.id == oid) _
            (by simpa using hxoid)]
        exact ih
      · rw [if_neg hx]
        by_cases hxo : (x.id == oid) = true
        · rw [List.find?_cons_of_pos (p := fun (y : Order) => y.id == oid) _ hxo,
            List.find?_cons_of_pos (p := fun (y : Order) => y.id == oid) _ hxo]
        · rw [List.find?_cons_of_neg (p := fun (y : Order) => y.id == oid) _
              (by simpa using hxo),
            List.find?_cons_of_neg (p := fun (y : Order) => y.id == oid) _
              (by simpa using hxo)]
          exact ih

theorem appendEntrySt_skel {s : MarketSt} {w : Wallet} {t : LedgerType}
    {d : LedgerDirection} {a ad hd : ℚ} {n rt ri : String} {cb : Option Nat}
    {s' : MarketSt} {w' : Wallet}
    (h : appendEntrySt s w t d a ad hd n rt ri cb = Except.ok (s', w')) :
    s'.orders = s.orders ∧ s'.disputes = s.disputes ∧
    s'.listings = s.listings ∧ s'.deposits = s.deposits ∧
    s'.withdrawals = s.withdrawals := by
  unfold appendEntrySt at h
  split at h
  · exact Except.noConfusion h
  · rw [Except.ok.injEq, Prod.mk.injEq] at h
    obtain ⟨hrec, _⟩ := h
    subst hrec
    exact ⟨rfl, rfl, rfl, rfl, rfl⟩

theorem get_or_create_skel (s : MarketSt) (uid : Nat) :
    (get_or_create_wallet s uid).1.orders = s.orders ∧
    (get_or_create_wallet s uid).1.disputes = s.disputes ∧
    (get_or_create_wallet s uid).1.listings = s.listings ∧
    (get_or_create_wallet s uid).1.deposits = s.deposits ∧
    (get_or_create_wallet s uid).1.withdrawals = s.withdrawals := by
  unfold get_or_create_wallet
  split
  · exact ⟨rfl, rfl, rfl, rfl, rfl⟩
  · exact ⟨rfl, rfl, rfl, rfl, rfl⟩

theorem findOrder_putOrder_eq {s : MarketSt} {oid : Nat} {o : Order}
    (h : findOrder s oid = some o) (o' : Order) (hid : o'.id = o.id) :
    findOrder (putOrder s o') oid = some o' :=
  find?_map_if_eq h o' hid

theorem findOrder_putOrder_ne {s : MarketSt} {oid : Nat} (o' : Order)
    (hid : ¬ o'.id = oid) :
    findOrder (putOrder s o') oid = findOrder s oid :=
  find?_map_if_ne o' hid

theorem findOrder_id {s : MarketSt} {oid : Nat} {o : Order}
    (h : findOrder s oid = some o) : o.id = oid := by
  have := List.find?_some h
  exact eq_of_beq (by simpa using this)

theorem mem_of_findOrder {s : MarketSt} {oid : Nat} {o : Order}
    (h : findOrder s oid = some o) : o ∈ s.orders :=
  List.mem_of_find?_eq_some h

/-- Orders are untouched by the deposit/withdrawal services. -/
theorem approve_deposit_orders {s : MarketSt} {tid : Nat} {r : User}
    {note : String} {s' : MarketSt}
    (h : approve_deposit s tid r note = Except.ok s') : s'.orders = s.orders := by
  unfold approve_deposit at h
  split at h
  · exact Except.noConfusion h
  split at h
  · exact Except.noConfusion h
  dsimp only at h
  split at h
  · exact Except.noConfusion h
  rename_i s1 w1 happ
  rw [Except.ok.injEq] at h
  subst h
  exact (appendEntrySt_skel happ).1.trans (get_or_create_skel s _).1

theorem reject_deposit_orders {s : MarketSt} {tid : Nat} {r : User}
    {note : String} {s' : MarketSt}
    (h : reject_deposit s tid r note = Except.ok s') : s'.orders = s.orders := by
  unfold reject_deposit at h
  split at h
  · exact Except.noConfusion h
  split at h
  · exact Except.noConfusion h
  rw [Except.ok.injEq] at h
  subst h
  rfl

theorem reserve_withdrawal_orders {s : MarketSt} {u : User} {amount : ℚ}
    {pm pd at' an bn : String} {s' : MarketSt} {r : WithdrawalRequest}
    (h : reserve_withdrawal s u amount pm pd at' an bn = Except.ok (s', r)) :
    s'.orders = s.orders := by
  unfold reserve_withdrawal at h
  split at h
  · exact Except.noConfusion h
  split at h
  · exact Except.noConfusion h
  dsimp only at h
  generalize (if pd.trim ≠ "" ∧ at'.trim = "" then "Manual payout details" else at'.trim) = tV at h
  generalize (if pd.trim ≠ "" ∧ an.trim = "" then "See payout details" else an.trim) = nV at h
  generalize (if pd.trim = ""
      then (if bn.trim ≠ "" then (tV ++ " | " ++ nV) ++ " | " ++ bn.trim
            else tV ++ " | " ++ nV)
      else pd.trim) = pdV at h
  split at h
  · exact Except.noConfusion h
  split at h
  · exact Except.noConfusion h
  split at h
  · exact Except.noConfusion h
  split at h
  · exact Except.noConfusion h
  split at h
  · exact Except.noConfusion h
  rename_i s1 w1 happ
  rw [Except.ok.injEq, Prod.mk.injEq] at h
  obtain ⟨h1, _⟩ := h
  subst h1
  exact (appendEntrySt_skel happ).1.trans (get_or_create_skel s u.id).1

theorem approve_withdrawal_orders {s : MarketSt} {wid : Nat} {r : User}
    {note : String} {s' : MarketSt}
    (h : approve_withdrawal s wid r note = Except.ok s') : s'.orders = s.orders := by
  unfold approve_withdrawal at h
  split at h
  · exact Except.noConfusion h
  split at h
  · exact Except.noConfusion h
  rw [Except.ok.injEq] at h
  subst h
  rfl

theorem reject_withdrawal_orders {s : MarketSt} {wid : Nat} {r : User}
    {note : String} {s' : MarketSt}
    (h : reject_withdrawal s wid r note = Except.ok s') : s'.orders = s.orders := by
  unfold reject_withdrawal at h
  split at h
  · exact Except.noConfusion h
  split at h
  · exact Except.noConfusion h
  dsimp only at h
  split at h
  · exact Except.noConfusion h
  split at h
  · exact Except.noConfusion h
  rename_i s1 w1 happ
  rw [Except.ok.injEq] at h
  subst h
  exact (appendEntrySt_skel happ).1.trans (get_or_create_skel s _).1

theorem pay_withdrawal_orders {s : MarketSt} {wid : Nat} {r : User}
    {note pr : String} {s' : MarketSt}
    (h : pay_withdrawal s wid r note pr = Except.ok s') : s'.orders = s.orders := by
  unfold pay_withdrawal at h
  split at h
  · exact Except.noConfusion h
  split at h
  · exact Except.noConfusion h
  dsimp only at h
  split at h
  · exact Except.noConfusion h
  split at h
  · exact Except.noConfusion h
  rename_i s1 w1 happ
  rw [Except.ok.injEq] at h
  subst h
  exact (appendEntrySt_skel happ).1.trans (get_or_create_skel s _).1

/-- A successful order creation appends the new PENDING_DELIVERY order. -/
theorem create_order_orders {s : MarketSt} {buyer : User} {lid qty : Nat}
    {now : Int} {s' : MarketSt} {o : Order}
    (h : create_order_from_listing s buyer lid qty now = Except.ok (s', o)) :
    o.status = OrderStatus.pending_delivery ∧ s'.orders = s.orders ++ [o] := by
  unfold create_order_from_listing at h
  split at h
  · exact Except.noConfusion h
  split at h
  · exact Except.noConfusion h
  split at h
  · exact Except.noConfusion h
  split at h
  · exact Except.noConfusion h
  split at h
  · exact Except.noConfusion h
  dsimp only at h
  split at h
  · exact Except.noConfusion h
  split at h
  · exact Except.noConfusion h
  rename_i s1 w1 happ1
  split at h
  · exact Except.noConfusion h
  rename_i s2 w2 happ2
  rw [Except.ok.injEq, Prod.mk.injEq] at h
  obtain ⟨h1, h2⟩ := h
  subst h1
  refine ⟨by rw [← h2], ?_⟩
  show s2.orders = s.orders ++ [o]
  rw [(appendEntrySt_skel happ2).1, (appendEntrySt_skel happ1).1]
  dsimp only
  rw [(get_or_create_skel _ _).1, (get_or_create_skel _ _).1, h2]

/-- A successful `mark_order_delivered` updates exactly the target order
from PENDING_DELIVERY to DELIVERED. -/
theorem mark_delivered_orders {s : MarketSt} {oid : Nat} {actor : User}
    {note : String} {now : Int} {s' : MarketSt} {o' : Order}
    (h : mark_order_delivered s oid actor note now = Except.ok (s', o')) :
    ∃ o, findOrder s oid = some o ∧
      o.status = OrderStatus.pending_delivery ∧
      o' = { o with
          status := OrderStatus.delivered
          delivery_note := note
          delivered_at := some now
          auto_release_at := some (now + AUTO_RELEASE_HOURS) } ∧
      s' = putOrder s o' := by
  unfold mark_order_delivered at h
  split at h
  · exact Except.noConfusion h
  rename_i o hfound
  split at h
  · exact Except.noConfusion h
  split at h
  · exact Except.noConfusion h
  rename_i hstatus
  rw [Except.ok.injEq, Prod.mk.injEq] at h
  obtain ⟨h1, h2⟩ := h
  subst h1
  subst h2
  exact ⟨o, hfound, not_not.mp hstatus, rfl, rfl⟩

/-- A successful `_release_order_funds` requires DELIVERED or DISPUTED and
completes exactly the target order. -/
theorem release_orders {s : MarketSt} {oid : Nat} {actor : Option User}
    {ba : Bool} {note : String} {now : Int} {s' : MarketSt} {o' : Order}
    (h : _release_order_funds s oid actor ba note now = Except.ok (s', o')) :
    ∃ o, findOrder s oid = some o ∧
      (o.status = OrderStatus.delivered ∨ o.status = OrderStatus.disputed) ∧
      o'.id = o.id ∧ o'.status = OrderStatus.completed ∧
      o'.auto_release_at = o.auto_release_at ∧
      s'.orders = s.orders.map (fun x => if x.id == o'.id then o' else x) := by
  unfold _release_order_funds at h
  split at h
  · exact Except.noConfusion h
  rename_i o hfound
  split at h
  · exact Except.noConfusion h
  rename_i hstatus
  dsimp only at h
  split at h
  · exact Except.noConfusion h
  split at h
  · exact Except.noConfusion h
  rename_i s1 w1 happ1
  split at h
  · exact Except.noConfusion h
  rename_i s2 w2 hfee
  have hs2orders : s2.orders = s.orders := by
    have h1 : s1.orders = s.orders := by
      rw [(appendEntrySt_skel happ1).1]
      exact (get_or_create_skel s o.sellerId).1
    split at hfee
    · rw [(appendEntrySt_skel hfee).1]
      exact h1
    · rw [Except.ok.injEq, Prod.mk.injEq] at hfee
      obtain ⟨h2, _⟩ := hfee
      subst h2
      exact h1
  have hstatus' : o.status = OrderStatus.delivered ∨
      o.status = OrderStatus.disputed := by
    by_contra hc
    push_neg at hc
    exact hstatus (by simp [hc.1, hc.2])
  split at h
  all_goals
    rw [Except.ok.injEq, Prod.mk.injEq] at h
    obtain ⟨h1, h2⟩ := h
    subst h1
    subst h2
    refine ⟨o, hfound, hstatus', rfl, rfl, rfl, ?_⟩
    simp only [putDispute, putOrder]
    rw [hs2orders]

/-- A successful `open_dispute` requires DELIVERED and sets exactly the
target order to DISPUTED. -/
theorem open_dispute_orders {s : MarketSt} {oid : Nat} {actor : User}
    {reason details : String} {s' : MarketSt}
    (h : open_dispute s oid actor reason details = Except.ok s') :
    ∃ o, findOrder s oid = some o ∧ o.status = OrderStatus.delivered ∧
      s'.orders = s.orders.map
        (fun x => if x.id == o.id then { o with status := OrderStatus.disputed }
                  else x) := by
  unfold open_dispute at h
  split at h
  · exact Except.noConfusion h
  rename_i o hfound
  split at h
  · exact Except.noConfusion h
  split at h
  · exact Except.noConfusion h
  rename_i hstatus
  dsimp only at h
  split at h
  · exact Except.noConfusion h
  rename_i s1 hwd
  rw [Except.ok.injEq] at h
  subst h
  refine ⟨o, hfound, not_not.mp hstatus, ?_⟩
  have hs1 : s1.orders = s.orders := by
    split at hwd
    · rw [Except.ok.injEq] at hwd
      subst hwd
      rfl
    · split at hwd
      · exact Except.noConfusion hwd
      · rw [Except.ok.injEq] at hwd
        subst hwd
        rfl
  show s1.orders.map _ = _
  rw [hs1]

/-- A successful `refund_order` requires a non-terminal status and sets
exactly the target order to REFUNDED. -/
theorem refund_orders {s : MarketSt} {oid : Nat} {actor : Option User}
    {note : String} {now : Int} {s' : MarketSt} {o' : Order}
    (h : refund_order s oid actor note now = Except.ok (s', o')) :
    ∃ o, findOrder s oid = some o ∧
      (o.status = OrderStatus.pending_delivery ∨
        o.status = OrderStatus.delivered ∨ o.status = OrderStatus.disputed) ∧
      o'.id = o.id ∧ o'.status = OrderStatus.refunded ∧
      s'.orders = s.orders.map (fun x => if x.id == o'.id then o' else x) := by
  unfold refund_order at h
  split at h
  · exact Except.noConfusion h
  rename_i o hfound
  split at h
  · exact Except.noConfusion h
  rename_i hstatus
  dsimp only at h
  split at h
  · exact Except.noConfusion h
  split at h
  · exact Except.noConfusion h
  rename_i s1 w1 happ1
  split at h
  · exact Except.noConfusion h
  rename_i s2 w2 happ2
  have hs2orders : s2.orders = s.orders := by
    rw [(appendEntrySt_skel happ2).1, (appendEntrySt_skel happ1).1]
    show (get_or_create_wallet (get_or_create_wallet s o.sellerId).1 _).1.orders
        = s.orders
    rw [(get_or_create_skel _ _).1, (get_or_create_skel _ _).1]
  have hstatus' : o.status = OrderStatus.pending_delivery ∨
      o.status = OrderStatus.delivered ∨ o.status = OrderStatus.disputed := by
    by_contra hc
    push_neg at hc
    exact hstatus (by simp [hc.1, hc.2.1, hc.2.2])
  split at h
  all_goals
    rw [Except.ok.injEq, Prod.mk.injEq] at h
    obtain ⟨h1, h2⟩ := h
    subst h1
    subst h2
    refine ⟨o, hfound, hstatus', rfl, rfl, ?_⟩
    simp only [putDispute, putOrder]
    rw [hs2orders]

theorem confirm_eq_release {s : MarketSt} {oid : Nat} {actor : User}
    {now : Int} {s' : MarketSt} {o' : Order}
    (h : confirm_order_delivery s oid actor now = Except.ok (s', o')) :
    _release_order_funds s oid (some actor) false "" now = Except.ok (s', o') := by
  unfold confirm_order_delivery at h
  split at h
  · exact Except.noConfusion h
  split at h
  · exact Except.noConfusion h
  exact h

theorem admin_eq_release {s : MarketSt} {oid : Nat} {r : User} {note : String}
    {now : Int} {s' : MarketSt} {o' : Order}
    (h : release_order_by_admin s oid r note now = Except.ok (s', o')) :
    _release_order_funds s oid (some r) false note now = Except.ok (s', o') := h

theorem seller_win_eq_release {s : MarketSt} {oid : Nat} {r : User}
    {note : String} {now : Int} {s' : MarketSt} {o' : Order}
    (h : resolve_dispute_seller_win s oid r note now = Except.ok (s', o')) :
    _release_order_funds s oid (some r) false note now = Except.ok (s', o') := by
  unfold resolve_dispute_seller_win at h
  split at h
  · exact Except.noConfusion h
  split at h
  · exact Except.noConfusion h
  exact h

theorem buyer_refund_eq_refund {s : MarketSt} {oid : Nat} {r : User}
    {note : String} {now : Int} {s' : MarketSt} {o' : Order}
    (h : resolve_dispute_buyer_refund s oid r note now = Except.ok (s', o')) :
    refund_order s oid (some r) note now = Except.ok (s', o') := by
  unfold resolve_dispute_buyer_refund at h
  split at h
  · exact Except.noConfusion h
  split at h
  · exact Except.noConfusion h
  exact h

theorem noCancelled_of_update {s s' : MarketSt} {c : Order → Bool} {u : Order}
    (hs : noCancelled s) (hu : u.status ≠ OrderStatus.cancelled)
    (horders : s'.orders = s.orders.map (fun x => if c x then u else x)) :
    noCancelled s' := by
  intro o ho
  rw [horders] at ho
  rcases mem_map_if ho with h | h
  · rw [h]
    exact hu
  · exact hs o h

theorem noCancelled_of_eq {s s' : MarketSt} (hs : noCancelled s)
    (horders : s'.orders = s.orders) : noCancelled s' := by
  intro o ho
  rw [horders] at ho
  exact hs o ho

theorem sweep_noCancelled (now : Int) (l : List Nat) (acc : MarketSt × Nat)
    (h : noCancelled acc.1) : noCancelled (l.foldl (sweepStep now) acc).1 := by
  induction l generalizing acc with
  | nil => exact h
  | cons oid rest ih =>
      rw [List.foldl_cons]
      refine ih _ ?_
      unfold sweepStep
      split
      · rename_i s1 o1 hrel
        obtain ⟨o, _, _, _, hst, _, horders⟩ := release_orders hrel
        exact noCancelled_of_update h (by rw [hst]; simp) horders
      · exact h

theorem step_noCancelled (s : MarketSt) (op : MarketOp) (s' : MarketSt)
    (hs : noCancelled s) (h : step s op = Except.ok s') : noCancelled s' := by
  cases op with
  | createOrder buyer lid qty now =>
      simp only [step] at h
      obtain ⟨r, hf⟩ := map_fst_ok h
      obtain ⟨hst, horders⟩ := create_order_orders hf
      intro o ho
      rw [horders] at ho
      rcases List.mem_append.mp ho with h1 | h1
      · exact hs o h1
      · simp only [List.mem_singleton] at h1
        subst h1
        rw [hst]
        simp
  | markDelivered oid actor note now =>
      simp only [step] at h
      obtain ⟨r, hf⟩ := map_fst_ok h
      obtain ⟨o, hfound, hstat, ho', hs'⟩ := mark_delivered_orders hf
      subst hs'
      exact noCancelled_of_update hs (by rw [ho']; simp) rfl
  | confirmDelivery oid actor now =>
      simp only [step] at h
      obtain ⟨r, hf⟩ := map_fst_ok h
      obtain ⟨o, _, _, _, hst, _, horders⟩ := release_orders (confirm_eq_release hf)
      exact noCancelled_of_update hs (by rw [hst]; simp) horders
  | releaseByAdmin oid reviewer note now =>
      simp only [step] at h
      obtain ⟨r, hf⟩ := map_fst_ok h
      obtain ⟨o, _, _, _, hst, _, horders⟩ := release_orders (admin_eq_release hf)
      exact noCancelled_of_update hs (by rw [hst]; simp) horders
  | openDispute oid actor reason details =>
      simp only [step] at h
      obtain ⟨o, hfound, hstat, horders⟩ := open_dispute_orders h
      exact noCancelled_of_update hs (by simp) horders
  | refundOrder oid actor note now =>
      simp only [step] at h
      obtain ⟨r, hf⟩ := map_fst_ok h
      obtain ⟨o, _, _, hst, _, horders⟩ := refund_orders hf
      · exact noCancelled_of_update hs (by rename_i hstc; rw [hstc]; simp) horders
  | resolveSellerWin oid reviewer note now =>
      simp only [step] at h
      obtain ⟨r, hf⟩ := map_fst_ok h
      obtain ⟨o, _, _, _, hst, _, horders⟩ := release_orders (seller_win_eq_release hf)
      exact noCancelled_of_update hs (by rw [hst]; simp) horders
  | resolveBuyerRefund oid reviewer note now =>
      simp only [step] at h
      obtain ⟨r, hf⟩ := map_fst_ok h
      obtain ⟨o, _, _, hst, _, horders⟩ := refund_orders (buyer_refund_eq_refund hf)
      · exact noCancelled_of_update hs (by rename_i hstc; rw [hstc]; simp) horders
  | processAutoReleases now =>
      simp only [step, Except.ok.injEq] at h
      subst h
      exact sweep_noCancelled now (dueOrderIds s now) (s, 0) hs
  | approveDeposit tid reviewer note =>
      simp only [step] at h
      exact noCancelled_of_eq hs (approve_deposit_orders h)
  | rejectDeposit tid reviewer note =>
      simp only [step] at h
      exact noCancelled_of_eq hs (reject_deposit_orders h)
  | reserveWithdrawal u amount pm pd at' an bn =>
      simp only [step] at h
      obtain ⟨r, hf⟩ := map_fst_ok h
      exact noCancelled_of_eq hs (reserve_withdrawal_orders hf)
  | approveWithdrawal wid reviewer note =>
      simp only [step] at h
      exact noCancelled_of_eq hs (approve_withdrawal_orders h)
  | rejectWithdrawal wid reviewer note =>
      simp only [step] at h
      exact noCancelled_of_eq hs (reject_withdrawal_orders h)
  | payWithdrawal wid reviewer note pr =>
      simp only [step] at h
      exact noCancelled_of_eq hs (pay_withdrawal_orders h)

/-- C10: no core operation ever assigns the CANCELLED status.  Starting
from any state with no cancelled order (in particular a fresh state, since
`create_order_from_listing` creates orders in PENDING_DELIVERY), any
sequence of core operations leaves CANCELLED unreachable. -/
theorem cancelled_unreachable (s : MarketSt) (ops : List MarketOp)
    (hs : noCancelled s) : noCancelled (runOps s ops) := by
  induction ops generalizing s with
  | nil => exact hs
  | cons op rest ih =>
      show noCancelled
        (runOps (match step s op with
                 | Except.ok s' => s'
                 | Except.error _ => s) rest)
      cases hstep : step s op with
      | ok s1 => exact ih s1 (step_noCancelled s op s1 hs hstep)
      | error e => exact ih s hs

/-- Witness for `cancelled_unreachable`: the full concrete purchase,
delivery and confirmation run from `stInit` never reaches CANCELLED. -/
theorem cancelled_unreachable_witness :
    noCancelled (runOps stInit
      [MarketOp.createOrder buyerU 10 2 100,
       MarketOp.markDelivered 1 sellerU "" 110,
       MarketOp.confirmDelivery 1 buyerU 120]) :=
  cancelled_unreachable stInit _ (by decide)

/-- C6: from a terminal status (COMPLETED, REFUNDED or CANCELLED) every
lifecycle operation fails with an error; since a failing operation rolls
back, order, wallets and ledger are unchanged — terminal statuses are
never left. -/
theorem terminal_states_frozen (s : MarketSt) (oid : Nat) (o : Order)
    (actorU : User) (actorO : Option User) (note reason details : String)
    (now : Int) (hfound : findOrder s oid = some o)
    (hterm : o.status = OrderStatus.completed ∨
      o.status = OrderStatus.refunded ∨ o.status = OrderStatus.cancelled) :
    isErr (mark_order_delivered s oid actorU note now) = true ∧
    isErr (_release_order_funds s oid actorO false note now) = true ∧
    isErr (confirm_order_delivery s oid actorU now) = true ∧
    isErr (release_order_by_admin s oid actorU note now) = true ∧
    isErr (open_dispute s oid actorU reason details) = true ∧
    isErr (refund_order s oid actorO note now) = true := by
  have hrel : ∀ (a : Option User) (nt : String),
      isErr (_release_order_funds s oid a false nt now) = true := by
    intro a nt
    unfold _release_order_funds
    rw [hfound]
    dsimp only
    split
    · rfl
    · rename_i hmem
      exfalso
      rcases hterm with hx | hx | hx <;> simp [hx] at hmem
  refine ⟨?_, hrel actorO note, ?_, hrel (some actorU) note, ?_, ?_⟩
  · unfold mark_order_delivered
    rw [hfound]
    dsimp only
    split
    · rfl
    split
    · rfl
    · rename_i h1 h2
      exfalso
      rcases hterm with hx | hx | hx <;> simp [hx] at h2
  · unfold confirm_order_delivery
    rw [hfound]
    dsimp only
    split
    · rfl
    · exact hrel (some actorU) ""
  · unfold open_dispute
    rw [hfound]
    dsimp only
    split
    · rfl
    split
    · rfl
    · rename_i h1 h2
      exfalso
      rcases hterm with hx | hx | hx <;> simp [hx] at h2
  · unfold refund_order
    rw [hfound]
    dsimp only
    split
    · rfl
    · rename_i hmem
      exfalso
      rcases hterm with hx | hx | hx <;> simp [hx] at hmem

/-- Witness for `terminal_states_frozen` at the concrete COMPLETED order
of `stCompleted`. -/
theorem terminal_states_frozen_witness :
    isErr (mark_order_delivered stCompleted 1 sellerU "" 200) = true ∧
    isErr (_release_order_funds stCompleted 1 (some buyerU) false "" 200) = true ∧
    isErr (confirm_order_delivery stCompleted 1 sellerU 200) = true ∧
    isErr (release_order_by_admin stCompleted 1 sellerU "" 200) = true ∧
    isErr (open_dispute stCompleted 1 sellerU "r" "d") = true ∧
    isErr (refund_order stCompleted 1 (some buyerU) "" 200) = true :=
  terminal_states_frozen stCompleted 1
    { pendingOrder with status := OrderStatus.completed } sellerU (some buyerU)
    "" "r" "d" 200 (by decide) (Or.inl rfl)

/-- C9 counterexample: `pay_withdrawal` succeeds on a request that is
still `pending` (never approved), because its gate only rejects the
`rejected` and `paid` statuses — refuting "pay_withdrawal succeeds only
from approved". -/
theorem pay_withdrawal_from_pending :
    (findWithdrawal stWithdrawPending 7).map WithdrawalRequest.status =
      some WithdrawalStatus.pending ∧
    pay_withdrawal stWithdrawPending 7 adminU "" "" =
      Except.ok stWithdrawPaid ∧
    (findWithdrawal stWithdrawPaid 7).map WithdrawalRequest.status =
      some WithdrawalStatus.paid :=
  ⟨by decide, by with_unfolding_all rfl, by decide⟩

/-- C9 amended: `approve_withdrawal` succeeds only from `pending`;
`reject_withdrawal` succeeds only from `pending` or `approved`;
`pay_withdrawal` succeeds from `pending` or `approved` (it fails exactly
from `rejected` and `paid`, so a pending request does not need to be
approved first); every gate violation fails with a WalletError and, the
transaction being rolled back, no state change. -/
theorem withdrawal_status_gates (s : MarketSt) (wid : Nat) (reviewer : User)
    (note pr : String) (req : WithdrawalRequest)
    (hfound : findWithdrawal s wid = some req) :
    ((∃ s', approve_withdrawal s wid reviewer note = Except.ok s') →
      req.status = WithdrawalStatus.pending) ∧
    (req.status ≠ WithdrawalStatus.pending →
      isErr (approve_withdrawal s wid reviewer note) = true) ∧
    ((∃ s', reject_withdrawal s wid reviewer note = Except.ok s') →
      req.status = WithdrawalStatus.pending ∨
        req.status = WithdrawalStatus.approved) ∧
    (¬(req.status = WithdrawalStatus.pending ∨
        req.status = WithdrawalStatus.approved) →
      isErr (reject_withdrawal s wid reviewer note) = true) ∧
    ((∃ s', pay_withdrawal s wid reviewer note pr = Except.ok s') →
      req.status = WithdrawalStatus.pending ∨
        req.status = WithdrawalStatus.approved) ∧
    ((req.status = WithdrawalStatus.rejected ∨
        req.status = WithdrawalStatus.paid) →
      isErr (pay_withdrawal s wid reviewer note pr) = true) := by
  refine ⟨?_, ?_, ?_, ?_, ?_, ?_⟩
  · rintro ⟨s', hok⟩
    unfold approve_withdrawal at hok
    rw [hfound] at hok
    dsimp only at hok
    split at hok
    · exact Except.noConfusion hok
    · rename_i hgate
      exact not_not.mp hgate
  · intro hne
    unfold approve_withdrawal
    rw [hfound]
    dsimp only
    split
    · rfl
    · rename_i hgate
      exact absurd (not_not.mp hgate) hne
  · rintro ⟨s', hok⟩
    unfold reject_withdrawal at hok
    rw [hfound] at hok
    dsimp only at hok
    split at hok
    · exact Except.noConfusion hok
    · rename_i hgate
      have := not_not.mp hgate
      simpa using this
  · intro hne
    unfold reject_withdrawal
    rw [hfound]
    dsimp only
    split
    · rfl
    · rename_i hgate
      exact absurd (by simpa using not_not.mp hgate) hne
  · rintro ⟨s', hok⟩
    unfold pay_withdrawal at hok
    rw [hfound] at hok
    dsimp only at hok
    split at hok
    · exact Except.noConfusion hok
    · rename_i hgate
      cases hst : req.status with
      | pending => exact Or.inl rfl
      | approved => exact Or.inr rfl
      | rejected => exact absurd (by simp [hst]) hgate
      | paid => exact absurd (by simp [hst]) hgate
  · intro hmem
    unfold pay_withdrawal
    rw [hfound]
    dsimp only
    split
    · rfl
    · rename_i hgate
      exact absurd (by simpa using hmem) hgate

/-- Witness for `withdrawal_status_gates` at the concrete pending request
of `stWithdrawPending`. -/
theorem withdrawal_status_gates_witness :
    ((∃ s', approve_withdrawal stWithdrawPending 7 adminU "" = Except.ok s') →
      reqPending.status = WithdrawalStatus.pending) ∧
    (reqPending.status ≠ WithdrawalStatus.pending →
      isErr (approve_withdrawal stWithdrawPending 7 adminU "") = true) ∧
    ((∃ s', reject_withdrawal stWithdrawPending 7 adminU "" = Except.ok s') →
      reqPending.status = WithdrawalStatus.pending ∨
        reqPending.status = WithdrawalStatus.approved) ∧
    (¬(reqPending.status = WithdrawalStatus.pending ∨
        reqPending.status = WithdrawalStatus.approved) →
      isErr (reject_withdrawal stWithdrawPending 7 adminU "") = true) ∧
    ((∃ s', pay_withdrawal stWithdrawPending 7 adminU "" "" = Except.ok s') →
      reqPending.status = WithdrawalStatus.pending ∨
        reqPending.status = WithdrawalStatus.approved) ∧
    ((reqPending.status = WithdrawalStatus.rejected ∨
        reqPending.status = WithdrawalStatus.paid) →
      isErr (pay_withdrawal stWithdrawPending 7 adminU "" "") = true) :=
  withdrawal_status_gates stWithdrawPending 7 adminU "" "" reqPending (by decide)

/-- C4: the concrete scenario.  A buyer with 5000.00 available buys 2
units at 500.00: the order totals 1000.00 with fee 50.00 and net 950.00,
the buyer is left with 4000.00 available and the seller with 1000.00
held, and the order is PENDING_DELIVERY.  After the seller marks it
delivered and the buyer confirms, the seller has 950.00 available and
0.00 held and the order is COMPLETED. -/
theorem scenario_buy_deliver_confirm :
    create_order_from_listing stInit buyerU 10 2 100 =
      Except.ok (stAfterCreate, pendingOrder) ∧
    pendingOrder.total_amount = 1000 ∧
    pendingOrder.platform_fee_amount = 50 ∧
    pendingOrder.seller_net_amount = 950 ∧
    pendingOrder.status = OrderStatus.pending_delivery ∧
    findWallet stAfterCreate 1 =
      some { userId := 1, available_balance := 4000, held_balance := 0 } ∧
    findWallet stAfterCreate 2 =
      some { userId := 2, available_balance := 0, held_balance := 1000 } ∧
    mark_order_delivered stAfterCreate 1 sellerU "" 110 =
      Except.ok (stScenDelivered, deliveredOrder) ∧
    confirm_order_delivery stScenDelivered 1 buyerU 120 =
      Except.ok (stScenFinal, completedOrder) ∧
    findWallet stScenFinal 1 =
      some { userId := 1, available_balance := 4000, held_balance := 0 } ∧
    findWallet stScenFinal 2 =
      some { userId := 2, available_balance := 950, held_balance := 0 } ∧
    completedOrder.status = OrderStatus.completed ∧
    findOrder stScenFinal 1 = some completedOrder :=
  ⟨by with_unfolding_all rfl, by decide, by decide, by decide, by decide,
   by decide, by decide, by with_unfolding_all rfl,
   by with_unfolding_all rfl, by decide, by decide, by decide, by decide⟩

theorem find?_map_if_eq_w {l : List Wallet} {uid : Nat} {w : Wallet}
    (h : l.find? (fun x => x.userId == uid) = some w) (w' : Wallet)
    (hid : w'.userId = w.userId) :
    (l.map (fun x => if x.userId == w'.userId then w' else x)).find?
      (fun x => x.userId == uid) = some w' := by
  have huid : (w.userId == uid) = true := by
    have := List.find?_some h
    simpa using this
  induction l with
  | nil => exact absurd h (by simp)
  | cons x xs ih =>
      by_cases hx : (x.userId == uid) = true
      · rw [List.find?_cons_of_pos (p := fun (y : Wallet) => y.userId == uid) _ hx,
          Option.some.injEq] at h
        subst h
        have hhead : (x.userId == w'.userId) = true := by
          rw [hid]
          exact beq_self_eq_true x.userId
        simp only [List.map_cons, if_pos hhead]
        refine List.find?_cons_of_pos (p := fun (y : Wallet) => y.userId == uid) _ ?_
        show (w'.userId == uid) = true
        rw [hid]
        exact hx
      · rw [List.find?_cons_of_neg (p := fun (y : Wallet) => y.userId == uid) _
          (by simpa using hx)] at h
        have hhead : ¬ (x.userId == w'.userId) = true := by
          intro hc
          apply hx
          have h1 : x.userId = w'.userId := eq_of_beq hc
          have h2 : w.userId = uid := eq_of_beq huid
          show (x.userId == uid) = true
          rw [h1, hid, h2]
          exact beq_self_eq_true uid
        simp only [List.map_cons, if_neg hhead]
        rw [List.find?_cons_of_neg (p := fun (y : Wallet) => y.userId == uid) _
          (by simpa using hx)]
        exact ih h

theorem findOrder_after_upd {l : List Order} {oid : Nat} {o : Order}
    (h : l.find? (fun x => x.id == oid) = some o) (st : OrderStatus)
    (bca ca : Option Int) :
    (l.map (fun x => if x.id == o.id then
        { o with status := st, buyer_confirmed_at := bca, completed_at := ca }
      else x)).find? (fun x => x.id == oid) =
      some { o with status := st, buyer_confirmed_at := bca, completed_at := ca } :=
  find?_map_if_eq h
    { o with status := st, buyer_confirmed_at := bca, completed_at := ca } rfl

theorem findWallet_after_upd {l : List Wallet} {uid : Nat} {sw : Wallet}
    (h : l.find? (fun x => x.userId == uid) = some sw) (a1 h1 : ℚ) :
    (l.map (fun x => if x.userId == sw.userId then
        { userId := sw.userId, available_balance := a1, held_balance := h1 }
      else x)).find? (fun x => x.userId == uid) =
      some { userId := sw.userId, available_balance := a1, held_balance := h1 } :=
  find?_map_if_eq_w h
    { userId := sw.userId, available_balance := a1, held_balance := h1 } rfl

theorem findWallet_after_two_upd {l : List Wallet} {uid : Nat} {sw : Wallet}
    (h : l.find? (fun x => x.userId == uid) = some sw) (a1 h1 a2 h2 : ℚ) :
    ((l.map (fun x => if x.userId == sw.userId then
        { userId := sw.userId, available_balance := a1, held_balance := h1 }
      else x)).map (fun x => if x.userId == sw.userId then
        { userId := sw.userId, available_balance := a2, held_balance := h2 }
      else x)).find? (fun x => x.userId == uid) =
      some { userId := sw.userId, available_balance := a2, held_balance := h2 } :=
  find?_map_if_eq_w
    (find?_map_if_eq_w h
      { userId := sw.userId, available_balance := a1, held_balance := h1 } rfl)
    { userId := sw.userId, available_balance := a2, held_balance := h2 } rfl

/-- C3: for every order in DELIVERED or DISPUTED status whose seller holds
at least `total_amount` (with the order's money fields well-formed as
guaranteed at creation: fee and net non-negative, fee + net = total),
`_release_order_funds` succeeds, decreases the seller's held balance by
exactly `total_amount`, increases the seller's available balance by
exactly `seller_net_amount` (the fee is debited from held and credited to
no wallet), appends a sale-release entry of `seller_net_amount` plus,
exactly when `platform_fee_amount > 0`, a fee-capture entry of
`platform_fee_amount`, and sets the order status to COMPLETED; when the
seller's held balance is below `total_amount` it fails, with no state
change since the transaction rolls back. -/
theorem release_funds_spec (s : MarketSt) (oid : Nat) (actor : Option User)
    (ba : Bool) (note : String) (now : Int) (o : Order) (sw : Wallet)
    (hfind : findOrder s oid = some o)
    (hstatus : o.status = OrderStatus.delivered ∨ o.status = OrderStatus.disputed)
    (hw : findWallet s o.sellerId = some sw)
    (hav : 0 ≤ sw.available_balance)
    (hnet : 0 ≤ o.seller_net_amount)
    (hfee : 0 ≤ o.platform_fee_amount)
    (hsum : o.platform_fee_amount + o.seller_net_amount = o.total_amount) :
    (o.total_amount ≤ sw.held_balance →
      ∃ s' o', _release_order_funds s oid actor ba note now = Except.ok (s', o') ∧
        o'.id = o.id ∧ o'.status = OrderStatus.completed ∧
        findOrder s' oid = some o' ∧
        (∃ w', findWallet s' o.sellerId = some w' ∧
          w'.available_balance = sw.available_balance + o.seller_net_amount ∧
          w'.held_balance = sw.held_balance - o.total_amount) ∧
        (∃ e1 rest, s'.ledger = s.ledger ++ e1 :: rest ∧
          e1.entry_type = LedgerType.order_sale_release ∧
          e1.amount = o.seller_net_amount ∧
          e1.available_delta = o.seller_net_amount ∧
          e1.held_delta = -o.seller_net_amount ∧
          (o.platform_fee_amount > 0 → ∃ e2, rest = [e2] ∧
            e2.entry_type = LedgerType.order_fee_capture ∧
            e2.amount = o.platform_fee_amount ∧
            e2.available_delta = 0 ∧
            e2.held_delta = -o.platform_fee_amount) ∧
          (¬ o.platform_fee_amount > 0 → rest = []))) ∧
    (sw.held_balance < o.total_amount →
      isErr (_release_order_funds s oid actor ba note now) = true) := by
  have hstat_neg : ¬(o.status ∉ [OrderStatus.delivered, OrderStatus.disputed]) := by
    rcases hstatus with h | h <;> simp [h]
  have hg : get_or_create_wallet s o.sellerId = (s, sw) := by
    unfold get_or_create_wallet
    rw [hw]
  constructor
  · intro hheld
    unfold _release_order_funds
    rw [hfind]
    dsimp only
    rw [if_neg hstat_neg, hg]
    dsimp only
    rw [if_neg (not_lt.mpr hheld)]
    unfold appendEntrySt append_wallet_entry
    dsimp only
    have hc1 : ¬(sw.available_balance + o.seller_net_amount < 0 ∨
        sw.held_balance + -o.seller_net_amount < 0) := by
      push_neg
      constructor <;> linarith
    rw [if_neg hc1]
    dsimp only [putWallet]
    by_cases hfpos : o.platform_fee_amount > 0
    · rw [if_pos hfpos]
      have hc2 : ¬(sw.available_balance + o.seller_net_amount + 0 < 0 ∨
          sw.held_balance + -o.seller_net_amount + -o.platform_fee_amount < 0) := by
        push_neg
        constructor <;> linarith
      rw [if_neg hc2]
      dsimp only [putWallet, putOrder]
      cases hdm : s.disputes.find?
          (fun d => d.orderId == o.id && d.status == DisputeStatus.open') with
      | none =>
          refine ⟨_, _, rfl, rfl, rfl, ?_, ?_, ?_⟩
          · exact findOrder_after_upd hfind _ _ _
          · exact ⟨_, findWallet_after_two_upd hw _ _ _ _,
              by dsimp only; try ring, by dsimp only; try linarith⟩
          · refine ⟨_, [_], List.append_assoc _ _ _,
              rfl, rfl, rfl, rfl,
              fun _ => ⟨_, rfl, rfl, rfl, rfl, rfl⟩, fun hc => absurd hfpos hc⟩
      | some d =>
          refine ⟨_, _, rfl, rfl, rfl, ?_, ?_, ?_⟩
          · exact findOrder_after_upd hfind _ _ _
          · exact ⟨_, findWallet_after_two_upd hw _ _ _ _,
              by dsimp only; try ring, by dsimp only; try linarith⟩
          · refine ⟨_, [_], List.append_assoc _ _ _,
              rfl, rfl, rfl, rfl,
              fun _ => ⟨_, rfl, rfl, rfl, rfl, rfl⟩, fun hc => absurd hfpos hc⟩
    · rw [if_neg hfpos]
      dsimp only [putWallet, putOrder]
      cases hdm : s.disputes.find?
          (fun d => d.orderId == o.id && d.status == DisputeStatus.open') with
      | none =>
          refine ⟨_, _, rfl, rfl, rfl, ?_, ?_, ?_⟩
          · exact findOrder_after_upd hfind _ _ _
          · exact ⟨_, findWallet_after_upd hw _ _,
              by dsimp only; try ring, by dsimp only; try linarith⟩
          · exact ⟨_, [], rfl, rfl, rfl, rfl, rfl,
              fun hc => absurd hc hfpos, fun _ => rfl⟩
      | some d =>
          refine ⟨_, _, rfl, rfl, rfl, ?_, ?_, ?_⟩
          · exact findOrder_after_upd hfind _ _ _
          · exact ⟨_, findWallet_after_upd hw _ _,
              by dsimp only; try ring, by dsimp only; try linarith⟩
          · exact ⟨_, [], rfl, rfl, rfl, rfl, rfl,
              fun hc => absurd hc hfpos, fun _ => rfl⟩
  · intro hlt
    unfold _release_order_funds
    rw [hfind]
    dsimp only
    rw [if_neg hstat_neg, hg]
    dsimp only
    rw [if_pos hlt]
    rfl

/-- Witness for `release_funds_spec` at the delivered order of
`stDelivered`. -/
theorem release_funds_spec_witness :
    (deliveredOrder.total_amount ≤ wSellerHeld.held_balance →
      ∃ s' o', _release_order_funds stDelivered 1 none true "" 200 =
          Except.ok (s', o') ∧
        o'.id = deliveredOrder.id ∧ o'.status = OrderStatus.completed ∧
        findOrder s' 1 = some o' ∧
        (∃ w', findWallet s' deliveredOrder.sellerId = some w' ∧
          w'.available_balance =
            wSellerHeld.available_balance + deliveredOrder.seller_net_amount ∧
          w'.held_balance =
            wSellerHeld.held_balance - deliveredOrder.total_amount) ∧
        (∃ e1 rest, s'.ledger = stDelivered.ledger ++ e1 :: rest ∧
          e1.entry_type = LedgerType.order_sale_release ∧
          e1.amount = deliveredOrder.seller_net_amount ∧
          e1.available_delta = deliveredOrder.seller_net_amount ∧
          e1.held_delta = -deliveredOrder.seller_net_amount ∧
          (deliveredOrder.platform_fee_amount > 0 → ∃ e2, rest = [e2] ∧
            e2.entry_type = LedgerType.order_fee_capture ∧
            e2.amount = deliveredOrder.platform_fee_amount ∧
            e2.available_delta = 0 ∧
            e2.held_delta = -deliveredOrder.platform_fee_amount) ∧
          (¬ deliveredOrder.platform_fee_amount > 0 → rest = []))) ∧
    (wSellerHeld.held_balance < deliveredOrder.total_amount →
      isErr (_release_order_funds stDelivered 1 none true "" 200) = true) :=
  release_funds_spec stDelivered 1 none true "" 200 deliveredOrder wSellerHeld
    (by decide) (Or.inl rfl) (by decide) (by decide) (by decide) (by decide)
    (by with_unfolding_all rfl)

/-! ### Status-transition tracking -/

theorem mem_map_if' {α : Type} {l : List α} {c : α → Bool} {u x' : α}
    (h : x' ∈ l.map (fun x => if c x then u else x)) :
    x' = u ∨ (x' ∈ l ∧ c x' = false) := by
  rcases List.mem_map.mp h with ⟨y, hy, hxy⟩
  by_cases hc : c y = true
  · rw [if_pos hc] at hxy
    exact Or.inl hxy.symm
  · rw [if_neg hc] at hxy
    subst hxy
    exact Or.inr ⟨hy, by simpa using hc⟩

theorem releaseTrans_trans {a b c : OrderStatus} (h1 : releaseTrans a b)
    (h2 : releaseTrans b c) : releaseTrans a c := by
  rcases h1 with rfl | ⟨ha, rfl⟩
  · exact h2
  · rcases h2 with rfl | ⟨hb, rfl⟩
    · exact Or.inr ⟨ha, rfl⟩
    · rcases hb with hb | hb <;> exact absurd hb (by simp)

theorem statusTrans_of_release {a b : OrderStatus} (h : releaseTrans a b) :
    statusTrans a b := by
  rcases h with rfl | ⟨ha, rfl⟩
  · exact Or.inl rfl
  · rcases ha with rfl | rfl
    · exact Or.inr (Or.inr (Or.inl ⟨rfl, Or.inl rfl⟩))
    · exact Or.inr (Or.inr (Or.inr ⟨rfl, Or.inl rfl⟩))

/-- Tracking an arbitrary order through one `_release_order_funds`. -/
theorem release_track {s : MarketSt} {oid2 : Nat} {actor : Option User}
    {ba : Bool} {note : String} {now : Int} {s' : MarketSt} {o2' : Order}
    (h : _release_order_funds s oid2 actor ba note now = Except.ok (s', o2'))
    {oid : Nat} {o : Order} (hfound : findOrder s oid = some o) :
    ∃ o', findOrder s' oid = some o' ∧ o'.id = o.id ∧
      releaseTrans o.status o'.status := by
  obtain ⟨o2, hfind2, hstat2, hid2, hst2, _, horders⟩ := release_orders h
  have hfs' : findOrder s' oid =
      (s.orders.map (fun x => if x.id == o2'.id then o2' else x)).find?
        (fun x => x.id == oid) := by
    unfold findOrder
    rw [horders]
  by_cases hc : o2'.id = oid
  · have hoid2 : o2.id = oid2 := findOrder_id hfind2
    have h22 : oid2 = oid := by rw [← hoid2, ← hid2, hc]
    rw [h22] at hfind2
    rw [hfound] at hfind2
    injection hfind2 with h2o
    subst h2o
    refine ⟨o2', ?_, hid2, ?_⟩
    · rw [hfs']
      exact find?_map_if_eq hfound o2' hid2
    · exact Or.inr ⟨hstat2, hst2⟩
  · refine ⟨o, ?_, rfl, Or.inl rfl⟩
    rw [hfs']
    rw [find?_map_if_ne o2' hc]
    exact hfound

/-- Tracking an arbitrary order through the auto-release sweep loop. -/
theorem sweep_track (now : Int) (l : List Nat) (acc : MarketSt × Nat)
    {oid : Nat} {o : Order} (hfound : findOrder acc.1 oid = some o) :
    ∃ o', findOrder (l.foldl (sweepStep now) acc).1 oid = some o' ∧
      o'.id = o.id ∧ releaseTrans o.status o'.status := by
  induction l generalizing acc o with
  | nil => exact ⟨o, hfound, rfl, Or.inl rfl⟩
  | cons oid2 rest ih =>
      rw [List.foldl_cons]
      cases hrel : _release_order_funds acc.1 oid2 none true "" now with
      | error e =>
          have hs : sweepStep now acc oid2 = acc := by
            unfold sweepStep
            rw [hrel]
          rw [hs]
          exact ih acc hfound
      | ok p =>
          have hs : sweepStep now acc oid2 = (p.1, acc.2 + 1) := by
            unfold sweepStep
            rw [hrel]
          rw [hs]
          obtain ⟨o1, hf1, hid1, htr1⟩ := release_track hrel hfound
          obtain ⟨o', hf', hid', htr'⟩ := ih (p.1, acc.2 + 1) hf1
          exact ⟨o', hf', hid'.trans hid1, releaseTrans_trans htr1 htr'⟩

/-- Tracking an arbitrary order through any single core operation: its
status may only change along `statusTrans`. -/
theorem step_statusTrans {s : MarketSt} {op : MarketOp} {s' : MarketSt}
    (h : step s op = Except.ok s') {oid : Nat} {o : Order}
    (hfound : findOrder s oid = some o) :
    ∃ o', findOrder s' oid = some o' ∧ o'.id = o.id ∧
      statusTrans o.status o'.status := by
  have keep : ∀ {s2 : MarketSt}, s2.orders = s.orders →
      ∃ o', findOrder s2 oid = some o' ∧ o'.id = o.id ∧
        statusTrans o.status o'.status := by
    intro s2 horders
    refine ⟨o, ?_, rfl, Or.inl rfl⟩
    unfold findOrder
    rw [horders]
    exact hfound
  have upd : ∀ {s2 : MarketSt} {oid2 : Nat} {o2 : Order} (o2' : Order),
      findOrder s oid2 = some o2 → o2'.id = o2.id →
      statusTrans o2.status o2'.status →
      s2.orders = s.orders.map (fun x => if x.id == o2'.id then o2' else x) →
      ∃ o', findOrder s2 oid = some o' ∧ o'.id = o.id ∧
        statusTrans o.status o'.status := by
    intro s2 oid2 o2 o2' hfind2 hid2 htr horders
    have hfs' : findOrder s2 oid =
        (s.orders.map (fun x => if x.id == o2'.id then o2' else x)).find?
          (fun x => x.id == oid) := by
      unfold findOrder
      rw [horders]
    by_cases hc : o2'.id = oid
    · have hoid2 : o2.id = oid2 := findOrder_id hfind2
      have h22 : oid2 = oid := by rw [← hoid2, ← hid2, hc]
      rw [h22] at hfind2
      rw [hfound] at hfind2
      injection hfind2 with h2o
      subst h2o
      refine ⟨o2', ?_, hid2, htr⟩
      rw [hfs']
      exact find?_map_if_eq hfound o2' hid2
    · refine ⟨o, ?_, rfl, Or.inl rfl⟩
      rw [hfs']
      rw [find?_map_if_ne o2' hc]
      exact hfound
  cases op with
  | createOrder buyer lid qty now =>
      simp only [step] at h
      obtain ⟨r, hf⟩ := map_fst_ok h
      obtain ⟨hst, horders⟩ := create_order_orders hf
      refine ⟨o, ?_, rfl, Or.inl rfl⟩
      unfold findOrder
      unfold findOrder at hfound
      rw [horders, List.find?_append, hfound]
      rfl
  | markDelivered oid2 actor note now =>
      simp only [step] at h
      obtain ⟨r, hf⟩ := map_fst_ok h
      obtain ⟨o2, hfind2, hstat2, ho2', hs'⟩ := mark_delivered_orders hf
      subst hs'
      refine upd r hfind2 (by rw [ho2']) ?_ rfl
      rw [ho2', hstat2]
      exact Or.inr (Or.inl ⟨rfl, Or.inl rfl⟩)
  | confirmDelivery oid2 actor now =>
      simp only [step] at h
      obtain ⟨r, hf⟩ := map_fst_ok h
      obtain ⟨o2, hfind2, hstat2, hid2, hst2, _, horders⟩ :=
        release_orders (confirm_eq_release hf)
      exact upd _ hfind2 hid2
        (statusTrans_of_release (Or.inr ⟨hstat2, hst2⟩)) horders
  | releaseByAdmin oid2 reviewer note now =>
      simp only [step] at h
      obtain ⟨r, hf⟩ := map_fst_ok h
      obtain ⟨o2, hfind2, hstat2, hid2, hst2, _, horders⟩ :=
        release_orders (admin_eq_release hf)
      exact upd _ hfind2 hid2
        (statusTrans_of_release (Or.inr ⟨hstat2, hst2⟩)) horders
  | openDispute oid2 actor reason details =>
      simp only [step] at h
      obtain ⟨o2, hfind2, hstat2, horders⟩ := open_dispute_orders h
      refine upd { o2 with status := OrderStatus.disputed } hfind2 rfl ?_ horders
      rw [hstat2]
      exact Or.inr (Or.inr (Or.inl ⟨rfl, Or.inr (Or.inl rfl)⟩))
  | refundOrder oid2 actor note now =>
      simp only [step] at h
      obtain ⟨r, hf⟩ := map_fst_ok h
      obtain ⟨o2, hfind2, hstat2, hid2, hst2, horders⟩ := refund_orders hf
      refine upd _ hfind2 hid2 ?_ horders
      rw [hst2]
      rcases hstat2 with hx | hx | hx <;> rw [hx]
      · exact Or.inr (Or.inl ⟨rfl, Or.inr rfl⟩)
      · exact Or.inr (Or.inr (Or.inl ⟨rfl, Or.inr (Or.inr rfl)⟩))
      · exact Or.inr (Or.inr (Or.inr ⟨rfl, Or.inr rfl⟩))
  | resolveSellerWin oid2 reviewer note now =>
      simp only [step] at h
      obtain ⟨r, hf⟩ := map_fst_ok h
      obtain ⟨o2, hfind2, hstat2, hid2, hst2, _, horders⟩ :=
        release_orders (seller_win_eq_release hf)
      exact upd _ hfind2 hid2
        (statusTrans_of_release (Or.inr ⟨hstat2, hst2⟩)) horders
  | resolveBuyerRefund oid2 reviewer note now =>
      simp only [step] at h
      obtain ⟨r, hf⟩ := map_fst_ok h
      obtain ⟨o2, hfind2, hstat2, hid2, hst2, horders⟩ :=
        refund_orders (buyer_refund_eq_refund hf)
      refine upd _ hfind2 hid2 ?_ horders
      rw [hst2]
      rcases hstat2 with hx | hx | hx <;> rw [hx]
      · exact Or.inr (Or.inl ⟨rfl, Or.inr rfl⟩)
      · exact Or.inr (Or.inr (Or.inl ⟨rfl, Or.inr (Or.inr rfl)⟩))
      · exact Or.inr (Or.inr (Or.inr ⟨rfl, Or.inr rfl⟩))
  | processAutoReleases now =>
      simp only [step, Except.ok.injEq] at h
      subst h
      obtain ⟨o', hf', hid', htr'⟩ :=
        sweep_track now (dueOrderIds s now) (s, 0) hfound
      exact ⟨o', hf', hid', statusTrans_of_release htr'⟩
  | approveDeposit tid reviewer note =>
      simp only [step] at h
      exact keep (approve_deposit_orders h)
  | rejectDeposit tid reviewer note =>
      simp only [step] at h
      exact keep (reject_deposit_orders h)
  | reserveWithdrawal u amount pm pd at' an bn =>
      simp only [step] at h
      obtain ⟨r, hf⟩ := map_fst_ok h
      exact keep (reserve_withdrawal_orders hf)
  | approveWithdrawal wid reviewer note =>
      simp only [step] at h
      exact keep (approve_withdrawal_orders h)
  | rejectWithdrawal wid reviewer note =>
      simp only [step] at h
      exact keep (reject_withdrawal_orders h)
  | payWithdrawal wid reviewer note pr =>
      simp only [step] at h
      exact keep (pay_withdrawal_orders h)

/-- C7 counterexample: `refund_order` moves a PENDING_DELIVERY order
directly to REFUNDED (its own precondition admits PENDING_DELIVERY), so
DELIVERED and CANCELLED are not the only statuses reachable in one core
operation from PENDING_DELIVERY. -/
theorem refund_from_pending_delivery :
    (findOrder stPending 1).map Order.status =
      some OrderStatus.pending_delivery ∧
    (refund_order stPending 1 none "" 105).map
        (fun p => (p.2.status, (findOrder p.1 1).map Order.status)) =
      Except.ok (OrderStatus.refunded, some OrderStatus.refunded) :=
  ⟨by decide, by with_unfolding_all rfl⟩

/-- C7 (amended): from PENDING_DELIVERY a single core operation can only
leave the status unchanged or move it to DELIVERED (`mark_order_delivered`)
or REFUNDED (`refund_order`); no operation takes it directly to COMPLETED,
DISPUTED or CANCELLED. -/
theorem pending_delivery_one_step (s : MarketSt) (op : MarketOp)
    (s' : MarketSt) (oid : Nat) (o o' : Order)
    (hfound : findOrder s oid = some o)
    (hpend : o.status = OrderStatus.pending_delivery)
    (h : step s op = Except.ok s')
    (hfound' : findOrder s' oid = some o') :
    o'.status = OrderStatus.pending_delivery ∨
    o'.status = OrderStatus.delivered ∨
    o'.status = OrderStatus.refunded := by
  obtain ⟨o2, hf2, _, htr⟩ := step_statusTrans h hfound
  rw [hfound'] at hf2
  injection hf2 with h2
  subst h2
  rcases htr with heq | ⟨ha, hb⟩ | ⟨ha, hb⟩ | ⟨ha, hb⟩
  · left
    rw [← heq]
    exact hpend
  · rcases hb with hb | hb
    · exact Or.inr (Or.inl hb)
    · exact Or.inr (Or.inr hb)
  · rw [hpend] at ha
    exact absurd ha (by simp)
  · rw [hpend] at ha
    exact absurd ha (by simp)

/-- Witness for `pending_delivery_one_step`: the concrete mark-delivered
step on `stPending`. -/
theorem pending_delivery_one_step_witness :
    deliveredOrder.status = OrderStatus.pending_delivery ∨
    deliveredOrder.status = OrderStatus.delivered ∨
    deliveredOrder.status = OrderStatus.refunded :=
  pending_delivery_one_step stPending (MarketOp.markDelivered 1 sellerU "" 110)
    stDelivered 1 pendingOrder deliveredOrder (by decide) rfl
    (by with_unfolding_all rfl) (by decide)

/-! ### Auto-release sweep counting -/

theorem sweep_count_le (now : Int) (l : List Nat) (acc : MarketSt × Nat) :
    (l.foldl (sweepStep now) acc).2 ≤ acc.2 + l.length := by
  induction l generalizing acc with
  | nil => simp
  | cons oid rest ih =>
      rw [List.foldl_cons]
      have hstep : (sweepStep now acc oid).2 ≤ acc.2 + 1 := by
        unfold sweepStep
        split
        · exact le_refl _
        · exact Nat.le_succ _
      calc (rest.foldl (sweepStep now) (sweepStep now acc oid)).2
          ≤ (sweepStep now acc oid).2 + rest.length := ih _
        _ ≤ acc.2 + 1 + rest.length := by omega
        _ = acc.2 + (oid :: rest).length := by simp [List.length_cons]; omega

/-- After a fully successful sweep pass over `l`, every still-DELIVERED
order already existed untouched and its id is not in `l`. -/
theorem sweep_full_success (now : Int) (l : List Nat) (acc : MarketSt × Nat)
    (h : (l.foldl (sweepStep now) acc).2 = acc.2 + l.length) :
    ∀ o' ∈ (l.foldl (sweepStep now) acc).1.orders,
      o'.status = OrderStatus.delivered → o' ∈ acc.1.orders ∧ o'.id ∉ l := by
  induction l generalizing acc with
  | nil =>
      intro o' ho' _
      exact ⟨ho', by simp⟩
  | cons oid rest ih =>
      rw [List.foldl_cons] at h ⊢
      cases hrel : _release_order_funds acc.1 oid none true "" now with
      | error e =>
          have hs : sweepStep now acc oid = acc := by
            unfold sweepStep
            rw [hrel]
          rw [hs] at h
          exfalso
          have hle := sweep_count_le now rest acc
          simp only [List.length_cons] at h
          omega
      | ok p =>
          have hs : sweepStep now acc oid = (p.1, acc.2 + 1) := by
            unfold sweepStep
            rw [hrel]
          rw [hs] at h ⊢
          intro o' ho' hst
          have hcount : (rest.foldl (sweepStep now) (p.1, acc.2 + 1)).2 =
              (p.1, acc.2 + 1).2 + rest.length := by
            simp only [List.length_cons] at h
            simp only []
            omega
          obtain ⟨hmem1, hnotin1⟩ := ih (p.1, acc.2 + 1) hcount o' ho' hst
          obtain ⟨o2, hfind2, _, hid2, hst2, _, horders⟩ := release_orders hrel
          rw [horders] at hmem1
          rcases mem_map_if' hmem1 with hx | ⟨hmem0, hcond⟩
          · rw [hx] at hst
            rw [hst2] at hst
            exact absurd hst (by simp)
          · refine ⟨hmem0, ?_⟩
            intro hin
            rcases List.mem_cons.mp hin with hin | hin
            · have hne : (o'.id == o2.id) = false := by
                rw [hid2] at hcond
                exact hcond
              rw [hin, findOrder_id hfind2] at hne
              simp at hne
            · exact hnotin1 hin

/-- C8: the auto-release sweep is idempotent.  A fully successful run at
time `now` (it released every due order: its count equals the number of
DELIVERED orders with a non-null `auto_release_at ≤ now`) leaves a state
on which an immediately repeated run releases zero orders and changes
nothing; moreover at any later time `now2` every order that is due was
already present before the first run and was not due at `now` — each
order is released at most once, and a per-order failure is skipped by
`sweepStep` without affecting the other due orders. -/
theorem auto_release_idempotent (s : MarketSt) (now now2 : Int)
    (_hnow : now ≤ now2)
    (hfull : (process_due_auto_releases s now).2 =
      (dueOrderIds s now).length) :
    process_due_auto_releases (process_due_auto_releases s now).1 now =
      ((process_due_auto_releases s now).1, 0) ∧
    (∀ o' ∈ (process_due_auto_releases s now).1.orders,
      isDue now2 o' = true → o' ∈ s.orders ∧ isDue now o' = false) := by
  have key := sweep_full_success now (dueOrderIds s now) (s, 0)
    (by simpa using hfull)
  have hmemdue : ∀ o' ∈ s.orders, isDue now o' = true →
      o'.id ∈ dueOrderIds s now := by
    intro o' hmem hdue
    unfold dueOrderIds
    exact List.mem_map_of_mem _ (List.mem_filter.mpr ⟨hmem, hdue⟩)
  have hdelivered : ∀ o' : Order, ∀ t : Int, isDue t o' = true →
      o'.status = OrderStatus.delivered := by
    intro o' t hdue
    unfold isDue at hdue
    simp only [Bool.and_eq_true, beq_iff_eq] at hdue
    exact hdue.1
  constructor
  · have hnodue : dueOrderIds (process_due_auto_releases s now).1 now = [] := by
      unfold dueOrderIds
      rw [List.map_eq_nil_iff, List.filter_eq_nil_iff]
      intro o' ho'
      intro hdue
      obtain ⟨hmem0, hnotin⟩ :=
        key o' ho' (hdelivered o' now (by simpa using hdue))
      exact hnotin (hmemdue o' hmem0 (by simpa using hdue))
    show (dueOrderIds (process_due_auto_releases s now).1 now).foldl _ _ = _
    rw [hnodue]
    rfl
  · intro o' ho' hdue
    obtain ⟨hmem0, hnotin⟩ := key o' ho' (hdelivered o' now2 hdue)
    refine ⟨hmem0, ?_⟩
    by_contra hc
    rw [Bool.not_eq_false] at hc
    exact hnotin (hmemdue o' hmem0 hc)

/-- Witness for `auto_release_idempotent`: the concrete delivered order of
`stDelivered` is due at time 200; the sweep releases it once and a second
sweep releases nothing. -/
theorem auto_release_idempotent_witness :
    process_due_auto_releases (process_due_auto_releases stDelivered 200).1 200 =
      ((process_due_auto_releases stDelivered 200).1, 0) ∧
    (∀ o' ∈ (process_due_auto_releases stDelivered 200).1.orders,
      isDue 300 o' = true → o' ∈ stDelivered.orders ∧ isDue 200 o' = false) :=
  auto_release_idempotent stDelivered 200 300 (by decide)
    (by with_unfolding_all rfl)

end GB
